import Mathlib

/-!
Shallow embedding of the plan–execute–reflect core of the Zephyrus agent
(`src/core/autonomous_agent.py` and the routing part of `src/api/db_client.py`).

Python dictionaries, lists, strings, ints, bools and `None` are modelled by
the inductive type `Val`; a Python `dict` with string keys is an ordered
association list (`Dict`).  Fallible Python code is modelled in `Except PyErr`;
an uncaught Python exception is `Except.error`.  External collaborators
(the OpenAI chat completion call together with its response parsing, and the
Contract Execution Service dispatch) are oracle parameters, so theorems
quantify over their behaviour.
-/

/-- Python runtime errors are modelled by their message string. -/
abbrev PyErr := String

/-- Model of a Python value (`None`, `bool`, `int`, `str`, `list`, `dict`).
Dictionaries are ordered association lists with string keys, matching the
JSON-shaped data this program manipulates. -/
inductive Val where
  | none
  | bool (b : Bool)
  | int (n : Int)
  | str (s : String)
  | list (xs : List Val)
  | dict (kvs : List (String × Val))

/-- A Python `dict` with string keys, as used for actions, history entries and
payloads. -/
abbrev Dict := List (String × Val)

/-- `d.get(k)` returning `none` when absent (first binding wins, as in a
Python dict where keys are unique). -/
def dictGet (d : Dict) (k : String) : Option Val :=
  (d.find? (fun kv => kv.1 == k)).map (·.2)

/-- `d.get(k, default)`. -/
def dictGetD (d : Dict) (k : String) (v : Val) : Val :=
  (dictGet d k).getD v

/-- `k in d` for a dict. -/
def dictHasKey (d : Dict) (k : String) : Bool :=
  (dictGet d k).isSome

/-- `d[k] = v`: replace the binding if the key exists, append otherwise
(insertion order is preserved, as in Python dicts). -/
def dictSet (d : Dict) (k : String) (v : Val) : Dict :=
  if dictHasKey d k then d.map (fun kv => if kv.1 == k then (k, v) else kv)
  else d ++ [(k, v)]

@[simp]
theorem dictGet_nil (k : String) : dictGet [] k = Option.none := rfl

@[simp]
theorem dictGet_cons (k' : String) (v : Val) (d : Dict) (k : String) :
    dictGet ((k', v) :: d) k = if k' == k then some v else dictGet d k := by
  by_cases h : (k' == k) = true <;> simp [dictGet, List.find?, h]

@[simp]
theorem dictHasKey_nil (k : String) : dictHasKey [] k = false := rfl

@[simp]
theorem dictHasKey_cons (k' : String) (v : Val) (d : Dict) (k : String) :
    dictHasKey ((k', v) :: d) k = (k' == k || dictHasKey d k) := by
  by_cases h : (k' == k) = true <;> simp [dictHasKey, dictGet, List.find?, h]

theorem dictGetD_eq (d : Dict) (k : String) (v : Val) :
    dictGetD d k v = (dictGet d k).getD v := rfl

/-- Python truthiness of a value. -/
def truthy : Val → Bool
  | .none => false
  | .bool b => b
  | .int n => n != 0
  | .str s => s != ""
  | .list [] => false
  | .list (_ :: _) => true
  | .dict [] => false
  | .dict (_ :: _) => true

mutual
/-- Python `==` on modelled values.  `bool` and `int` compare numerically
(`True == 1`); values of unrelated types compare unequal.  Dict equality is
modelled on the ordered association-list representation. -/
def Val.pyEq : Val → Val → Bool
  | .none, .none => true
  | .bool a, .bool b => a == b
  | .bool a, .int n => (if a then (1 : Int) else 0) == n
  | .int n, .bool a => n == (if a then (1 : Int) else 0)
  | .int a, .int b => a == b
  | .str a, .str b => a == b
  | .list xs, .list ys => Val.pyEqList xs ys
  | .dict xs, .dict ys => Val.pyEqDict xs ys
  | _, _ => false

def Val.pyEqList : List Val → List Val → Bool
  | [], [] => true
  | x :: xs, y :: ys => Val.pyEq x y && Val.pyEqList xs ys
  | _, _ => false

def Val.pyEqDict : List (String × Val) → List (String × Val) → Bool
  | [], [] => true
  | (k, v) :: xs, (k', v') :: ys => k == k' && Val.pyEq v v' && Val.pyEqDict xs ys
  | _, _ => false
end

/-- Python `x in l` for a list value. -/
def pyMemList (x : Val) (l : List Val) : Bool :=
  l.any (fun y => Val.pyEq x y)

/-! ### String and regex helpers

The source uses `re` with a handful of fixed patterns.  Each pattern is
modelled by a dedicated scanner with Python's leftmost, non-overlapping
semantics (`re.findall`) or leftmost-first semantics (`re.search`),
including the orderly backtracking the concrete patterns can perform. -/

/-- `str.lower()` (ASCII, which covers all strings this program matches on). -/
def lowerChar (c : Char) : Char :=
  if 'A' ≤ c && c ≤ 'Z' then Char.ofNat (c.toNat + 32) else c

def lowerStr (s : String) : String := String.mk (s.toList.map lowerChar)

/-- A character of the regex class `[a-fA-F0-9]`. -/
def isHexChar (c : Char) : Bool :=
  c.isDigit || ('a' ≤ c && c ≤ 'f') || ('A' ≤ c && c ≤ 'F')

/-- A regex word character `\w` (ASCII). -/
def isWordChar (c : Char) : Bool := c.isAlpha || c.isDigit || c == '_'

/-- A regex whitespace character `\s`. -/
def pySpaceChar (c : Char) : Bool :=
  c == ' ' || c == '\t' || c == '\n' || c == '\r' || c == '\x0b' || c == '\x0c'

/-- Value of a (nonempty) digit run. -/
def digitsToNat (ds : List Char) : Nat :=
  ds.foldl (fun a c => a * 10 + (c.toNat - '0'.toNat)) 0

/-- Substring test on character lists. -/
def listContainsSub (needle : List Char) : List Char → Bool
  | [] => needle.isEmpty
  | c :: cs => needle.isPrefixOf (c :: cs) || listContainsSub needle cs

/-- Python `needle in hay` on strings (substring test). -/
def strContains (hay needle : String) : Bool :=
  listContainsSub needle.toList hay.toList

/-- `re.findall` driver: try the matcher at every position, left to right;
on a match of `k + 1` characters emit the result and continue after it,
otherwise advance one character.  (`fuel` starts at the input length; every
step consumes at least one character, so it never runs out.  It exists only
to make the recursion structural.) -/
def scanAllAux {α : Type} (m : List Char → Option (α × Nat)) :
    Nat → List Char → List α
  | 0, _ => []
  | _, [] => []
  | fuel + 1, c :: cs =>
    match m (c :: cs) with
    | some (a, k) => a :: scanAllAux m fuel (cs.drop k)
    | Option.none => scanAllAux m fuel cs

def scanAll {α : Type} (m : List Char → Option (α × Nat)) (l : List Char) : List α :=
  scanAllAux m l.length l

/-- `re.findall` driver for patterns with a leading boundary/lookbehind: the
matcher also sees the character preceding the current position. -/
def scanAllPAux {α : Type} (m : Option Char → List Char → Option (α × Nat)) :
    Nat → Option Char → List Char → List α
  | 0, _, _ => []
  | _, _, [] => []
  | fuel + 1, prev, c :: cs =>
    match m prev (c :: cs) with
    | some (a, k) => a :: scanAllPAux m fuel (some ((c :: cs).getD k c)) (cs.drop k)
    | Option.none =>
      have := prev
      scanAllPAux m fuel (some c) cs

def scanAllP {α : Type} (m : Option Char → List Char → Option (α × Nat))
    (prev : Option Char) (l : List Char) : List α :=
  scanAllPAux m l.length prev l

/-- `re.search` driver: first position where the matcher succeeds. -/
def searchFirst {α : Type} (m : List Char → Option α) : List Char → Option α
  | [] => Option.none
  | c :: cs =>
    match m (c :: cs) with
    | some a => some a
    | Option.none => searchFirst m cs

/-- One match of `0x[a-fA-F0-9]{40}` at the current position. -/
def matchAddressAt : List Char → Option (String × Nat)
  | '0' :: 'x' :: rest =>
    let hex := rest.take 40
    if hex.length == 40 && hex.all isHexChar then
      some (String.mk ('0' :: 'x' :: hex), 41)
    else Option.none
  | _ => Option.none

/-- `re.findall(r'0x[a-fA-F0-9]{40}', s)`. -/
def findAddresses (s : String) : List String := scanAll matchAddressAt s.toList

/-- `\s+(\d+)` at the current position; returns the captured number and the
total number of characters consumed. -/
def matchSpacesDigits (cs : List Char) : Option (Int × Nat) :=
  let sp := cs.takeWhile pySpaceChar
  if sp.isEmpty then Option.none
  else
    let ds := (cs.drop sp.length).takeWhile Char.isDigit
    if ds.isEmpty then Option.none
    else some ((digitsToNat ds : Int), sp.length + ds.length)

/-- The keyword alternation of the `amount_pattern` regex in
`_determine_initial_actions_from_description`, in source order. -/
def amountKeywords : List String :=
  ["less than", "mint", "equals", "equal to", "greater than", "more than",
   "minimum", "maximum", "min", "max", "about", "around", "approximately",
   "exactly", "precisely"]

/-- `(?:kw1|kw2|...)\s+(\d+)` at the current position, trying the
alternatives in order as the regex engine does. -/
def matchKeywordNumAt : List String → List Char → Option (Int × Nat)
  | [], _ => Option.none
  | kw :: rest, cs =>
    if kw.toList.isPrefixOf cs then
      match matchSpacesDigits (cs.drop kw.length) with
      | some (n, used) => some (n, kw.length + used - 1)
      | Option.none => matchKeywordNumAt rest cs
    else matchKeywordNumAt rest cs

/-- `re.findall` for the `amount_pattern` regex (keyword-prefixed numbers). -/
def findThresholdAmounts (s : String) : List Int :=
  scanAll (matchKeywordNumAt amountKeywords) s.toList

/-- The unit-word alternation of the `direct_amount_pattern` regex, in source
order. -/
def unitWords : List String :=
  ["at a time", "tokens", "coin", "coins", "wei", "gwei", "eth", "ether", "token"]

/-- Match one of the unit words at the current position, requiring the `\b`
that follows the alternation in the pattern. -/
def matchUnitAt : List String → List Char → Option Nat
  | [], _ => Option.none
  | w :: rest, cs =>
    if w.toList.isPrefixOf cs then
      if ((cs.drop w.length).head?).all (fun c => !isWordChar c) then some w.length
      else matchUnitAt rest cs
    else matchUnitAt rest cs

/-- `\b(\d+)\s+(?:at a time|tokens|...)\b` at the current position
(`prev` is the character before the position, for the leading `\b`). -/
def matchDirectAmountAt (prev : Option Char) (cs : List Char) : Option (Int × Nat) :=
  if prev.all (fun c => !isWordChar c) then
    let ds := cs.takeWhile Char.isDigit
    if ds.isEmpty then Option.none
    else
      let rest1 := cs.drop ds.length
      let sp := rest1.takeWhile pySpaceChar
      if sp.isEmpty then Option.none
      else
        match matchUnitAt unitWords (rest1.drop sp.length) with
        | some wlen => some ((digitsToNat ds : Int), ds.length + sp.length + wlen - 1)
        | Option.none => Option.none
  else Option.none

/-- `re.findall` for the `direct_amount_pattern` regex. -/
def findDirectAmounts (s : String) : List Int :=
  scanAllP matchDirectAmountAt Option.none s.toList

/-- `(?<![a-fA-F0-9])\b(\d+)\b(?![a-fA-F0-9])` at the current position. -/
def matchStandaloneAt (prev : Option Char) (cs : List Char) : Option (Int × Nat) :=
  if prev.all (fun c => !isWordChar c && !isHexChar c) then
    let ds := cs.takeWhile Char.isDigit
    if ds.isEmpty then Option.none
    else
      if ((cs.drop ds.length).head?).all (fun c => !isWordChar c && !isHexChar c) then
        some ((digitsToNat ds : Int), ds.length - 1)
      else Option.none
  else Option.none

/-- `re.findall` for the `standalone_pattern` regex. -/
def findStandaloneAmounts (s : String) : List Int :=
  scanAllP matchStandaloneAt Option.none s.toList

/-- `(\d+)(?:\s+tokenes|\s+tokens)` at the current position (the
`_get_pending_tasks` amount pattern). -/
def matchTokensAmountAt (cs : List Char) : Option (Int × Nat) :=
  let ds := cs.takeWhile Char.isDigit
  if ds.isEmpty then Option.none
  else
    let rest1 := cs.drop ds.length
    let sp := rest1.takeWhile pySpaceChar
    if sp.isEmpty then Option.none
    else
      let rest2 := rest1.drop sp.length
      if "tokenes".toList.isPrefixOf rest2 then
        some ((digitsToNat ds : Int), ds.length + sp.length + 7 - 1)
      else if "tokens".toList.isPrefixOf rest2 then
        some ((digitsToNat ds : Int), ds.length + sp.length + 6 - 1)
      else Option.none

/-- `re.findall(r'(\d+)(?:\s+tokenes|\s+tokens)', s)`. -/
def findTokensAmounts (s : String) : List Int :=
  scanAll matchTokensAmountAt s.toList

/-- `re.search(kw + r'\s+(\d+)', s)`, used for `less than\s+(\d+)` and
`mint\s+(\d+)`. -/
def searchKwNum (kw : String) (s : String) : Option Int :=
  searchFirst (fun cs =>
    if kw.toList.isPrefixOf cs then (matchSpacesDigits (cs.drop kw.length)).map (·.1)
    else Option.none) s.toList

/-- Continuation of the lazy `.+?(\d+)` tail: find the first digit run
reachable without crossing a newline. -/
def lazyDigitsGo : List Char → Option Int
  | [] => Option.none
  | c :: cs =>
    if c.isDigit then some ((digitsToNat ((c :: cs).takeWhile Char.isDigit) : Int))
    else if c == '\n' then Option.none
    else lazyDigitsGo cs

/-- `.+?(\d+)` right after a matched prefix: at least one (non-newline)
character, then the first digit run on the same line. -/
def lazyDigitsAfter : List Char → Option Int
  | [] => Option.none
  | c :: cs => if c == '\n' then Option.none else lazyDigitsGo cs

/-- `re.search(name + r'.+?(\d+)', s)` for the dynamic parameter-context
pattern of `_extract_param_value_from_description`. -/
def searchContextNum (name : String) (s : String) : Option Int :=
  searchFirst (fun cs =>
    if name.toList.isPrefixOf cs then lazyDigitsAfter (cs.drop name.length)
    else Option.none) s.toList

/-- Continuation of a lazy `.+?(?:w1|w2|...)` tail. -/
def lazyWordsGo (ws : List String) : List Char → Bool
  | [] => false
  | c :: cs =>
    ws.any (fun w => w.toList.isPrefixOf (c :: cs)) || (c != '\n' && lazyWordsGo ws cs)

/-- `.+?(?:w1|w2|...)` right after a matched prefix. -/
def lazyWordsAfter (ws : List String) : List Char → Bool
  | [] => false
  | c :: cs => c != '\n' && lazyWordsGo ws cs

/-- `re.search(name + r'.+?(?:w1|...)', s) is not None`, for the boolean
parameter-context patterns. -/
def searchContextWords (name : String) (ws : List String) (s : String) : Bool :=
  (searchFirst (fun cs =>
    if name.toList.isPrefixOf cs then
      (if lazyWordsAfter ws (cs.drop name.length) then some () else Option.none)
    else Option.none) s.toList).isSome

/-! ### Python builtins

Operations whose Python counterparts can raise are modelled in
`Except PyErr`. -/

mutual
/-- Python `repr()` on modelled values (dicts print in insertion order). -/
def pyRepr : Val → String
  | .none => "None"
  | .bool b => if b then "True" else "False"
  | .int n => toString n
  | .str s => "'" ++ s ++ "'"
  | .list xs => "[" ++ pyReprList xs ++ "]"
  | .dict kvs => "\x7b" ++ pyReprDict kvs ++ "\x7d"

def pyReprList : List Val → String
  | [] => ""
  | [x] => pyRepr x
  | x :: y :: xs => pyRepr x ++ ", " ++ pyReprList (y :: xs)

def pyReprDict : List (String × Val) → String
  | [] => ""
  | [(k, v)] => "'" ++ k ++ "': " ++ pyRepr v
  | (k, v) :: kv :: kvs => "'" ++ k ++ "': " ++ pyRepr v ++ ", " ++ pyReprDict (kv :: kvs)
end

/-- Python `str()` on modelled values. -/
def pyStr : Val → String
  | .str s => s
  | v => pyRepr v

/-- `int()` of a string: optional surrounding whitespace, optional sign,
then digits (digit-group underscores are not modelled). -/
def pyIntOfString (s : String) : Except PyErr Int :=
  let t := ((s.toList.dropWhile pySpaceChar).reverse.dropWhile pySpaceChar).reverse
  match t with
  | '-' :: ds =>
    if !ds.isEmpty && ds.all Char.isDigit then .ok (-(digitsToNat ds : Int))
    else .error "ValueError: invalid literal for int()"
  | '+' :: ds =>
    if !ds.isEmpty && ds.all Char.isDigit then .ok ((digitsToNat ds : Int))
    else .error "ValueError: invalid literal for int()"
  | ds =>
    if !ds.isEmpty && ds.all Char.isDigit then .ok ((digitsToNat ds : Int))
    else .error "ValueError: invalid literal for int()"

/-- The `int()` builtin on a value. -/
def pyInt : Val → Except PyErr Int
  | .int n => .ok n
  | .bool b => .ok (if b then 1 else 0)
  | .str s => pyIntOfString s
  | _ => .error "TypeError: int() argument must be a string or a number"

/-- A value used as an operand of `//` or `<` against an int (numbers only). -/
def asIntE : Val → Except PyErr Int
  | .int n => .ok n
  | .bool b => .ok (if b then 1 else 0)
  | _ => .error "TypeError: unsupported operand type"

/-- Python `n < v` for an int `n`. -/
def pyLtIntVal (n : Int) : Val → Except PyErr Bool
  | .int m => .ok (n < m)
  | .bool b => .ok (n < (if b then 1 else 0))
  | _ => .error "TypeError: comparison not supported"

/-- Python `x in v` (lists test elementwise equality, dicts test keys,
strings test substrings). -/
def pyInE (x : Val) : Val → Except PyErr Bool
  | .list ys => .ok (pyMemList x ys)
  | .dict kvs => .ok (kvs.any (fun kv => Val.pyEq x (.str kv.1)))
  | .str s =>
    match x with
    | .str sub => .ok (strContains s sub)
    | _ => .error "TypeError: in requires string as left operand"
  | _ => .error "TypeError: argument is not a container"

/-- Membership of each of the given strings, with short-circuit, as in
`any(b in behaviors for b in [...])` and chained `or`s. -/
def pyAnyMem : List String → Val → Except PyErr Bool
  | [], _ => .ok false
  | s :: rest, v => do
    if (← pyInE (.str s) v) then pure true else pyAnyMem rest v

/-- `v[0]` (lists and strings). -/
def pyIndex0 : Val → Except PyErr Val
  | .list (x :: _) => .ok x
  | .list [] => .error "IndexError: list index out of range"
  | .str s =>
    match s.toList with
    | c :: _ => .ok (.str (String.mk [c]))
    | [] => .error "IndexError: string index out of range"
  | _ => .error "TypeError: object is not subscriptable"

/-- `v[i]` for a natural index. -/
def pyIndexNat (v : Val) (i : Nat) : Except PyErr Val :=
  match v with
  | .list xs =>
    match xs.get? i with
    | some x => .ok x
    | Option.none => .error "IndexError: list index out of range"
  | .str s =>
    match s.toList.get? i with
    | some c => .ok (.str (String.mk [c]))
    | Option.none => .error "IndexError: string index out of range"
  | _ => .error "TypeError: object is not subscriptable"

/-- `len(v)`. -/
def pyLen : Val → Except PyErr Nat
  | .list xs => .ok xs.length
  | .str s => .ok s.length
  | .dict kvs => .ok kvs.length
  | _ => .error "TypeError: object has no len()"

/-- `v.append(x)` (lists only). -/
def pyAppend (v x : Val) : Except PyErr Val :=
  match v with
  | .list xs => .ok (.list (xs ++ [x]))
  | _ => .error "AttributeError: object has no attribute append"

/-- `v.get(k, default)` — `v` must be a dict. -/
def pyDictGetE (v : Val) (k : String) (default : Val) : Except PyErr Val :=
  match v with
  | .dict kvs => .ok (dictGetD kvs k default)
  | _ => .error "AttributeError: object has no attribute get"

/-- `v[k]` for a string key (dicts only; strings/lists raise on string
subscripts). -/
def pyGetItemStrE (v : Val) (k : String) : Except PyErr Val :=
  match v with
  | .dict kvs =>
    match dictGet kvs k with
    | some x => .ok x
    | Option.none => .error "KeyError"
  | _ => .error "TypeError: indices must be integers"

/-- Iteration (`for x in v`): lists yield elements, strings yield
one-character strings, dicts yield their keys. -/
def pyItemsE : Val → Except PyErr (List Val)
  | .list xs => .ok xs
  | .str s => .ok (s.toList.map (fun c => .str (String.mk [c])))
  | .dict kvs => .ok (kvs.map (fun kv => .str kv.1))
  | _ => .error "TypeError: object is not iterable"

/-! ### Data model (`src/models/agent.py`)

`Agent` and `AgentFunction` are dataclasses; only the fields the core logic
reads are modelled.  `contract_abi` is the instance attribute
`self.contract_abi` set in `initialize`. -/

structure AgentS where
  agent_id : String
  contract_id : String
  name : String
  description : String
  owner : String
  gas_limit : Val
  max_priority_fee : Val
  contract_state : Val
  contract_abi : Val

structure FnS where
  function_id : String
  function_name : String
  function_signature : String
  function_type : String
  is_enabled : Bool
  abi : Val

/-! ### ABI parameter-name helpers

The scans at `autonomous_agent.py:670-675`, `908-914` (first address-typed
input, with `break`) and `705-710`, `936-942` (address/uint inputs, no
`break`, so the last one wins).  ABI parameter names are modelled as
strings; a non-string `name` value would become a non-string dict key in
Python and is outside this embedding. -/

def firstAddressLoop (default : String) : List Val → Except PyErr String
  | [] => .ok default
  | ip :: rest => do
    let ty ← pyDictGetE ip "type" .none
    if Val.pyEq ty (.str "address") then
      match (← pyDictGetE ip "name" (.str default)) with
      | .str s => pure s
      | _ => throw "ModelError: non-string ABI parameter name"
    else firstAddressLoop default rest

/-- `if f.abi and "inputs" in f.abi: for input_param in f.abi["inputs"]: ...`
taking the first `address`-typed input's name (default `"account"`-style). -/
def firstAddressParamName (abi : Val) (default : String) : Except PyErr String := do
  if truthy abi then
    if (← pyInE (.str "inputs") abi) then
      firstAddressLoop default (← pyItemsE (← pyGetItemStrE abi "inputs"))
    else pure default
  else pure default

def mintParamLoop : List Val → String × String → Except PyErr (String × String)
  | [], acc => .ok acc
  | ip :: rest, (toName, amtName) => do
    let ty ← pyDictGetE ip "type" .none
    if Val.pyEq ty (.str "address") then
      match (← pyDictGetE ip "name" (.str "to")) with
      | .str s => mintParamLoop rest (s, amtName)
      | _ => throw "ModelError: non-string ABI parameter name"
    else if pyMemList ty [.str "uint256", .str "uint"] then
      match (← pyDictGetE ip "name" (.str "amount")) with
      | .str s => mintParamLoop rest (toName, s)
      | _ => throw "ModelError: non-string ABI parameter name"
    else mintParamLoop rest (toName, amtName)

/-- The `to`/`amount` parameter names for a mint-style function (defaults
`"to"`/`"amount"`; each matching ABI input overwrites, no `break`). -/
def mintParamNames (abi : Val) : Except PyErr (String × String) := do
  if truthy abi then
    if (← pyInE (.str "inputs") abi) then
      mintParamLoop (← pyItemsE (← pyGetItemStrE abi "inputs")) ("to", "amount")
    else pure ("to", "amount")
  else pure ("to", "amount")

/-! ### `_determine_initial_actions_from_description` (lines 863-958) -/

/-- Deterministic initial actions derived from the agent description: the
four amount regexes, then a balance-read action if the description mentions
balance/check, else a mint/transfer/send action.  (`self.agent` is always
present in this model, so `description` is the lowered agent description.) -/
def determineInitialActionsE (A : AgentS) (fns : List FnS) : Except PyErr (List Dict) := do
  let description := lowerStr A.description
  let addresses := findAddresses description
  let threshold_amounts := findThresholdAmounts description
  let direct_amounts := findDirectAmounts description
  let standalone_amounts := (findStandaloneAmounts description).filter
    (fun n => !threshold_amounts.contains n && !direct_amounts.contains n)
  let amounts := threshold_amounts ++ direct_amounts ++ standalone_amounts
  let actions1 ←
    if strContains description "balance" || strContains description "check" then
      match fns.find? (fun f =>
          (lowerStr f.function_name == "balanceof" || lowerStr f.function_name == "balance")
          && f.function_type == "read") with
      | some bf => do
        match addresses with
        | a :: _ => do
          let pname ← firstAddressParamName bf.abi "account"
          pure [[("function", Val.str bf.function_name),
                 ("params", Val.dict [(pname, Val.str a)]),
                 ("message", Val.str ("Checking balance for address " ++ a))]]
        | [] =>
          pure [[("function", Val.str bf.function_name),
                 ("params", Val.dict []),
                 ("message", Val.str "Checking balance for address owner")]]
      | Option.none => pure []
    else pure []
  if (strContains description "mint" || strContains description "transfer"
      || strContains description "send") && actions1.isEmpty then
    match fns.find? (fun f =>
        (lowerStr f.function_name == "mint" || lowerStr f.function_name == "transfer"
         || lowerStr f.function_name == "send")
        && f.function_type == "write") with
    | some mf => do
      match addresses with
      | a :: _ => do
        let (toName, amtName) ← mintParamNames mf.abi
        let params0 : Dict := [(toName, Val.str a)]
        let params :=
          match amounts with
          | n :: _ => dictSet params0 amtName (Val.int n)
          | [] =>
            if dictHasKey params0 "amount" then params0
            else dictSet params0 amtName (Val.int 5000000)
        pure [[("function", Val.str mf.function_name),
               ("params", Val.dict params),
               ("message", Val.str ("Minting tokens to " ++ a))]]
      | [] =>
        pure [[("function", Val.str mf.function_name),
               ("params", Val.dict []),
               ("message", Val.str "Minting tokens to address")]]
    | Option.none => pure actions1
  else pure actions1

/-! ### Decision Engine: `analyze_state` (lines 575-861) -/

/-- The `AttributeError` raised by the fallback loops at lines 835 and 846:
`AutonomousAgent.__init__` (lines 22-31) assigns `self.functions` but never
`self._functions`, and no other method of the class assigns it either, so
`self._functions.items()` raises. -/
def noFunctionsAttrErr : PyErr :=
  "AttributeError: 'AutonomousAgent' object has no attribute '_functions'"

def condLessThanLoop : List Val → Except PyErr (Option Val)
  | [] => .ok Option.none
  | c :: rest => do
    match c with
    | .str s =>
      match searchKwNum "less than" s with
      | some n => pure (some (.int n))
      | Option.none => condLessThanLoop rest
    | _ => throw "TypeError: expected string or bytes-like object"

/-- Threshold/mint-amount derivation of `analyze_state` (lines 601-653):
first two entries of `amounts`, else `less than N` from a condition, else a
pattern in the description, else defaults; both values are appended to
`amounts` when new.  Returns `(threshold, mint, updated amounts)`. -/
def deriveStateAmounts (A : AgentS) (amounts0 conditions : Val) :
    Except PyErr (Option Val × Option Val × Val) := do
  let (thr0, mint0) ←
    if truthy amounts0 then do
      let len ← pyLen amounts0
      let t ← if len ≥ 1 then some <$> pyIndexNat amounts0 0 else pure Option.none
      let m ← if len ≥ 2 then some <$> pyIndexNat amounts0 1 else pure Option.none
      pure (t, m)
    else pure (Option.none, Option.none)
  let thr1 ←
    if thr0.isNone && truthy conditions then
      condLessThanLoop (← pyItemsE conditions)
    else pure thr0
  let mint1 :=
    if mint0.isNone then
      match searchKwNum "mint" (lowerStr A.description) with
      | some n => some (Val.int n)
      | Option.none => Option.none
    else mint0
  let thr2 :=
    if thr1.isNone then
      if strContains (lowerStr (pyStr conditions)) "less than" then some (Val.int 5)
      else Option.none
    else thr1
  let mint2 ←
    if mint1.isNone then
      match thr2 with
      | some t => do
        let tn ← asIntE t
        pure (some (Val.int (max 1 (Int.fdiv tn 2))))
      | Option.none => pure Option.none
    else pure mint1
  let amounts1 ←
    match thr2 with
    | some t => do
      if (← pyInE t amounts0) then pure amounts0 else pyAppend amounts0 t
    | Option.none => pure amounts0
  let amounts2 ←
    match mint2 with
    | some m => do
      if (← pyInE m amounts1) then pure amounts1 else pyAppend amounts1 m
    | Option.none => pure amounts1
  pure (thr2, mint2, amounts2)

/-- Deterministic first phase of `analyze_state` (lines 594-728): with
truthy extracted parameters, derive amounts, then a balance-check action
(behaviors check_balance/check/balance; the function search does not test
`function_type` or `is_enabled`), else a mint action (behavior mint, write
function named mint), else fall back to the description heuristic. -/
def detActionsOf (A : AgentS) (fns : List FnS) (trig : Dict) :
    Except PyErr (List Dict) := do
  let extracted := dictGetD trig "extracted_params" (.dict [])
  if truthy extracted then do
    let behaviors ← pyDictGetE extracted "behaviors" (.list [])
    let addresses ← pyDictGetE extracted "addresses" (.list [])
    let amounts ← pyDictGetE extracted "amounts" (.list [])
    let conditions ← pyDictGetE extracted "conditions" (.list [])
    let (_thr, mintAmt, _amounts') ← deriveStateAmounts A amounts conditions
    let actions1 ←
      if (← pyAnyMem ["check_balance", "check", "balance"] behaviors) then
        match fns.find? (fun f =>
            lowerStr f.function_name == "balanceof" || lowerStr f.function_name == "balance") with
        | some bf =>
          if truthy addresses then do
            let a0 ← pyIndex0 addresses
            let pname ← firstAddressParamName bf.abi "account"
            pure [[("function", Val.str bf.function_name),
                   ("params", Val.dict [(pname, a0)]),
                   ("message", Val.str ("Checking balance for address " ++ pyStr a0))]]
          else pure []
        | Option.none => pure []
      else pure []
    let actions2 ←
      if actions1.isEmpty then do
        if (← pyInE (.str "mint") behaviors) then
          match fns.find? (fun f =>
              lowerStr f.function_name == "mint" && f.function_type == "write") with
          | some mf =>
            if truthy addresses then do
              let a0 ← pyIndex0 addresses
              let mintV := mintAmt.getD (Val.int 5000000)
              let (toName, amtName) ← mintParamNames mf.abi
              let params := dictSet (dictSet [] toName a0) amtName mintV
              pure [[("function", Val.str mf.function_name),
                     ("params", Val.dict params),
                     ("message", Val.str ("Minting " ++ pyStr mintV ++ " tokens to " ++ pyStr a0))]]
            else pure []
          | Option.none => pure []
        else pure []
      else pure actions1
    if actions2.isEmpty then determineInitialActionsE A fns else pure actions2
  else pure []

/-- `analyze_state` without its outer exception handler.  The `llm`
parameter models the OpenAI chat-completion call composed with
`_parse_openai_response` (lines 782-817): `.error` is a raising call,
`.ok l` a call parsed into the action list `l`.  Prompt construction
(lines 732-780) only feeds the external call and is not modelled. -/
def analyzeStateCore (A : AgentS) (fns : List FnS) (llm : Except PyErr (List Dict))
    (trig : Dict) : Except PyErr (List Dict) := do
  let acts ← detActionsOf A fns trig
  if !acts.isEmpty then pure acts
  else
    match llm with
    | .ok parsed => pure parsed
    | .error _ =>
      let extracted := dictGetD trig "extracted_params" (.dict [])
      if truthy extracted then do
        let h ← determineInitialActionsE A fns
        if h.isEmpty then do
          if (← pyInE (.str "behaviors") extracted) then do
            let behaviors ← pyGetItemStrE extracted "behaviors"
            let _addrs ← pyDictGetE extracted "addresses" (.list [])
            let _amts ← pyDictGetE extracted "amounts" (.list [])
            if (← pyAnyMem ["check_balance", "check"] behaviors) then
              throw noFunctionsAttrErr
            else if (← pyInE (.str "mint") behaviors) then
              throw noFunctionsAttrErr
            else pure h
          else pure h
        else pure h
      else pure []

/-- `analyze_state` (lines 575-861): the outer handler catches every
exception and returns the empty action list. -/
def analyzeState (A : AgentS) (fns : List FnS) (llm : Except PyErr (List Dict))
    (trig : Dict) : List Dict :=
  match analyzeStateCore A fns llm trig with
  | .ok l => l
  | .error _ => []

/-! ### `_get_pending_tasks` (lines 1755-1836) -/

/-- The `to` parameters of `mint` entries in the history (the
`minted_addresses` set; only membership is used, so a list suffices).
The `DOMAIN_SEPARATOR`/`ADMIN_ROLE` arms of the source's `elif` chain only
bind locals that the function never reads, so they contribute nothing. -/
def mintedAddressesE : List Dict → Except PyErr (List Val)
  | [] => .ok []
  | r :: rest => do
    let f := dictGetD r "function" .none
    if Val.pyEq f (.str "mint") then
      if dictHasKey r "params" then do
        let ps := dictGetD r "params" .none
        if (← pyInE (.str "to") ps) then do
          let a ← pyGetItemStrE ps "to"
          let others ← mintedAddressesE rest
          pure (a :: others)
        else mintedAddressesE rest
      else mintedAddressesE rest
    else mintedAddressesE rest

/-- `_get_pending_tasks`: required reads (`DOMAIN_SEPARATOR`, `ADMIN_ROLE`)
not yet executed, then a mint task for each description address that does
not yet appear as a mint `to` parameter in the history.  Task dicts use the
keys `function_name`/`parameters`/`message`. -/
def getPendingTasksE (A : AgentS) (hist : List Dict) : Except PyErr (List Dict) := do
  let executed := hist.map (fun r => dictGetD r "function" .none)
  let minted ← mintedAddressesE hist
  let description := lowerStr A.description
  let expected := findAddresses description
  let t1 : List Dict :=
    if strContains description "domain_separator"
        && !pyMemList (.str "DOMAIN_SEPARATOR") executed then
      [[("function_name", Val.str "DOMAIN_SEPARATOR"), ("parameters", Val.dict []),
        ("message", Val.str "Getting the domain separator data as described in the behavior.")]]
    else []
  let t2 : List Dict :=
    if (strContains description "admin_role" || strContains description "admin role")
        && !pyMemList (.str "ADMIN_ROLE") executed then
      [[("function_name", Val.str "ADMIN_ROLE"), ("parameters", Val.dict []),
        ("message", Val.str "Reading the ADMIN_ROLE value as required in the agent description.")]]
    else []
  let mintTasks : List Dict := expected.filterMap (fun addr =>
    if !pyMemList (.str addr) minted && strContains description "mint" then
      let amounts := findTokensAmounts description
      let amount : Int := amounts.headD 5000000
      some [("function_name", Val.str "mint"),
            ("parameters", Val.dict [("to", Val.str addr), ("amount", Val.int amount)]),
            ("message", Val.str ("Minting " ++ toString amount ++ " tokens to " ++ addr
              ++ " as specified in the agent description."))]
    else Option.none)
  pure (t1 ++ t2 ++ mintTasks)

/-! ### Reflection Engine: `analyze_results` (lines 960-1172) -/

/-- Scan from the end of the history for the last `balanceOf`/`balance`
execution (lines 989-993; the argument is the already-reversed history). -/
def findLastBalance : List Dict → Except PyErr (Option Dict)
  | [] => .ok Option.none
  | e :: rest => do
    let f := dictGetD e "function" .none
    if truthy f then do
      let s ←
        match f with
        | .str s => pure (lowerStr s)
        | _ => throw "AttributeError: object has no attribute lower"
      if s == "balanceof" || s == "balance" then pure (some e) else findLastBalance rest
    else findLastBalance rest

/-- The `except (ValueError, TypeError)` handler at line 1085: those two
error classes fall through, everything else propagates. -/
def catchVTErr (x : Except PyErr (Option (List Dict))) : Except PyErr (Option (List Dict)) :=
  match x with
  | .error e =>
    if "ValueError".isPrefixOf e || "TypeError".isPrefixOf e then .ok Option.none
    else .error e
  | r => r

/-- Body of the `try` at lines 1000-1084: parse the observed balance, derive
threshold and mint amount (defaults 5 and `max(1, threshold // 2)` here are
unconditional), then compare.  Below threshold with behavior `mint`: one
mint action; below threshold otherwise, when the last history entry was a
mint: one balance re-check action. -/
def reflectionTry (A : AgentS) (fns : List FnS) (extracted : Val)
    (addresses amounts behaviors : Val) (bal : Val) (hist : List Dict) :
    Except PyErr (Option (List Dict)) := do
  let current ← pyInt bal
  let conditions ← pyDictGetE extracted "conditions" (.list [])
  let (thr0, mint0) ←
    if truthy amounts then do
      let len ← pyLen amounts
      let t ← if len ≥ 1 then some <$> pyIndexNat amounts 0 else pure Option.none
      let m ← if len ≥ 2 then some <$> pyIndexNat amounts 1 else pure Option.none
      pure (t, m)
    else pure (Option.none, Option.none)
  let thr1 ←
    if thr0.isNone && truthy conditions then
      condLessThanLoop (← pyItemsE conditions)
    else pure thr0
  let mint1 :=
    if mint0.isNone then
      match searchKwNum "mint" (lowerStr A.description) with
      | some n => some (Val.int n)
      | Option.none => Option.none
    else mint0
  let thr2 := thr1.getD (Val.int 5)
  let mint2 ←
    match mint1 with
    | some m => pure m
    | Option.none => do
      let tn ← asIntE thr2
      pure (Val.int (max 1 (Int.fdiv tn 2)))
  let lt ← pyLtIntVal current thr2
  if lt then do
    if (← pyInE (.str "mint") behaviors) then
      match fns.find? (fun f =>
          lowerStr f.function_name == "mint" && f.function_type == "write") with
      | some mf => do
        let toV ← if truthy addresses then pyIndex0 addresses else pure (Val.str A.owner)
        let toTxt ← if truthy addresses then pyStr <$> pyIndex0 addresses else pure "owner"
        pure (some [[("function", Val.str mf.function_name),
               ("params", Val.dict [("to", toV), ("amount", mint2)]),
               ("message", Val.str ("Minting " ++ pyStr mint2 ++ " tokens to " ++ toTxt
                 ++ " to meet threshold of " ++ pyStr thr2))]])
      | Option.none => pure Option.none
    else do
      match hist.getLast? with
      | some la => do
        let f := dictGetD la "function" .none
        if truthy f then do
          let s ←
            match f with
            | .str s => pure (lowerStr s)
            | _ => throw "AttributeError: object has no attribute lower"
          if s == "mint" then
            match fns.find? (fun f =>
                (lowerStr f.function_name == "balanceof" || lowerStr f.function_name == "balance")
                && f.function_type == "read") with
            | some bf => do
              let acct ← if truthy addresses then pyIndex0 addresses else pure (Val.str A.owner)
              let acctTxt ← if truthy addresses then pyStr <$> pyIndex0 addresses else pure "owner"
              pure (some [[("function", Val.str bf.function_name),
                     ("params", Val.dict [("account", acct)]),
                     ("message", Val.str ("Checking updated balance after mint for " ++ acctTxt))]])
            | Option.none => pure Option.none
          else pure Option.none
        else pure Option.none
      | Option.none => pure Option.none
  else pure Option.none

/-- The reflection heuristic block (lines 980-1086); `some acts` is an early
`return`, `none` falls through to the pending-task/LLM stages. -/
def reflectionHeuristic (A : AgentS) (fns : List FnS) (extracted : Val)
    (hist : List Dict) : Except PyErr (Option (List Dict)) := do
  let addresses ← pyDictGetE extracted "addresses" (.list [])
  let amounts ← pyDictGetE extracted "amounts" (.list [])
  let behaviors ← pyDictGetE extracted "behaviors" (.list [])
  if (← pyAnyMem ["check_balance", "check"] behaviors) then do
    match (← findLastBalance hist.reverse) with
    | some lb =>
      if dictHasKey lb "result" then do
        let res := dictGetD lb "result" .none
        let succ ← pyDictGetE res "success" .none
        if truthy succ then do
          let bal ← pyDictGetE res "data" .none
          if truthy bal then
            catchVTErr (reflectionTry A fns extracted addresses amounts behaviors bal hist)
          else pure Option.none
        else pure Option.none
      else pure Option.none
    | Option.none => pure Option.none
  else pure Option.none

/-- Deterministic prefix of `analyze_results`: pending tasks are derived
first (line 976), then the reflection heuristic may return early, then
pending tasks are returned when the trigger does not force completing all
tasks; `.ok none` means the OpenAI consultation would follow. -/
def analyzeResultsDet (A : AgentS) (fns : List FnS) (trig : Dict) (hist : List Dict) :
    Except PyErr (Option (List Dict)) := do
  let extracted := dictGetD trig "extracted_params" (.dict [])
  let pending ← getPendingTasksE A hist
  let r ←
    if !hist.isEmpty && truthy extracted then
      reflectionHeuristic A fns extracted hist
    else pure Option.none
  match r with
  | some acts => pure (some acts)
  | Option.none =>
    if !truthy (dictGetD trig "complete_all_tasks" (.bool false)) && !pending.isEmpty then
      pure (some pending)
    else pure Option.none

/-- `analyze_results` with the OpenAI consultation as an oracle: on an LLM
exception the pending tasks (possibly empty) are returned instead of
propagating (lines 1167-1172). -/
def analyzeResults (A : AgentS) (fns : List FnS) (llm : Except PyErr (List Dict))
    (trig : Dict) (hist : List Dict) : Except PyErr (List Dict) := do
  match (← analyzeResultsDet A fns trig hist) with
  | some acts => pure acts
  | Option.none =>
    match llm with
    | .ok l => pure l
    | .error _ => do
      let pending ← getPendingTasksE A hist
      if !pending.isEmpty then pure pending else pure []

/-! ### Action Executor: payload and routing
(`execute_function`, lines 305-340 and 371; `db_client.execute_contract_function`,
`db_client.py:453-476`) -/

/-- ABI resolution of `execute_function` (lines 307-324): prefer the
function's own ABI, fall back to the contract ABI, raise when neither is
truthy, and wrap a bare dict in a one-element list. -/
def resolveFunctionAbi (f : FnS) (contractAbi : Val) : Except PyErr Val :=
  let abi1 : Val := if truthy f.abi then f.abi else .none
  let abi2 : Val := if !truthy abi1 && truthy contractAbi then contractAbi else abi1
  if !truthy abi2 then
    .error ("ValueError: No ABI available for function " ++ f.function_name)
  else .ok (match abi2 with | .dict kvs => .list [.dict kvs] | v => v)

/-- The `execution_data` dict built at lines 305-340 (after parameter
validation has passed): contract address, resolved ABI, function name,
ordered input values, and the gas fields for write/payable functions. -/
def executeFunctionPayload (A : AgentS) (f : FnS) (params : Val) : Except PyErr Dict := do
  let abiUse ← resolveFunctionAbi f A.contract_abi
  let inputs : Val := match params with | .dict kvs => .list (kvs.map (·.2)) | v => v
  let base : Dict :=
    [("contractAddress", Val.str A.contract_id), ("abi", abiUse),
     ("functionName", Val.str f.function_name), ("inputs", inputs)]
  if f.function_type == "write" || f.function_type == "payable" then
    pure (base ++ [("gasLimit", A.gas_limit), ("maxPriorityFee", A.max_priority_fee)])
  else pure base

/-- The dict actually POSTed to the Contract Execution Service:
`execute_function` stores the internal type into `execution_data` just
before dispatch (line 371), and `execute_contract_function` posts
`execution_data` unchanged (`db_client.py:469`). -/
def executionRequest (A : AgentS) (f : FnS) (params : Val) : Except PyErr Dict := do
  let p ← executeFunctionPayload A f params
  pure (dictSet p "type" (Val.str f.function_type))

/-- Route selection of `execute_contract_function` (`db_client.py:460-465`),
reading `execution_data["type"]`. -/
def contractEndpoint (body : Dict) : Except PyErr String := do
  let t ← pyGetItemStrE (.dict body) "type"
  if Val.pyEq t (.str "read") then pure "/contracts/read"
  else if Val.pyEq t (.str "write") || Val.pyEq t (.str "payable") then pure "/contracts/write"
  else pure "/contracts/execute"

/-! ### Cycle Controller: `analyze_and_execute` (lines 447-573) -/

/-- One action of the `for action in actions` loop (lines 491-543) up to and
including the dispatch: `none` is the `continue` taken when the function
name does not match any configured function, `some entry` a success entry.
The oracle `ex` stands for `execute_function` on the resolved function
(dispatch plus best-effort logging); its `.error` is the exception
`execute_function` re-raises. -/
def execBody (fns : List FnS) (extracted : Val) (ex : String → Val → Except PyErr Val)
    (a : Dict) : Except PyErr (Option Dict) := do
  let fnVal := dictGetD a "function" .none
  let params0 := dictGetD a "params" (.dict [])
  let msg := dictGetD a "message" .none
  let params ←
    if !truthy params0 && truthy extracted then do
      match fns.find? (fun f => Val.pyEq (Val.str f.function_name) fnVal) with
      | some mf =>
        if mf.function_type == "read"
            && (lowerStr mf.function_name == "balanceof"
                || lowerStr mf.function_name == "balance") then do
          let addrs ← pyDictGetE extracted "addresses" .none
          if truthy addrs then do
            let a0 ← pyIndex0 addrs
            pure (Val.dict [("account", a0)])
          else pure params0
        else if mf.function_type == "write"
            && (lowerStr mf.function_name == "mint"
                || lowerStr mf.function_name == "transfer") then do
          let addrs ← pyDictGetE extracted "addresses" .none
          if truthy addrs then do
            let a0 ← pyIndex0 addrs
            let amts ← pyDictGetE extracted "amounts" .none
            if truthy amts then do
              let m0 ← pyIndex0 amts
              pure (Val.dict [("to", a0), ("amount", m0)])
            else pure (Val.dict [("to", a0)])
          else pure params0
        else pure params0
      | Option.none => pure params0
    else pure params0
  match fns.find? (fun f => Val.pyEq (Val.str f.function_name) fnVal) with
  | Option.none => pure Option.none
  | some mf => do
    let r ← ex mf.function_name params
    pure (some [("function", fnVal), ("params", params), ("result", r), ("message", msg)])

/-- One iteration of the action loop with its `try`/`except` (lines
491-555): exceptions become error entries carrying the original action's
params, unknown functions contribute nothing. -/
def execOne (fns : List FnS) (extracted : Val) (ex : String → Val → Except PyErr Val)
    (a : Dict) : List Dict :=
  match execBody fns extracted ex a with
  | .ok Option.none => []
  | .ok (some entry) => [entry]
  | .error e =>
    [[("function", dictGetD a "function" .none),
      ("params", dictGetD a "params" (.dict [])),
      ("error", Val.str e),
      ("message", dictGetD a "message" .none)]]

/-- The sequential per-cycle action loop producing `cycle_results`. -/
def execActions (fns : List FnS) (extracted : Val) (ex : String → Val → Except PyErr Val) :
    List Dict → List Dict
  | [] => []
  | a :: rest => execOne fns extracted ex a ++ execActions fns extracted ex rest

/-- The while loop of `analyze_and_execute` (lines 485-567).  `fuel` is
`max_cycles - current_cycle`; the result is the results produced from this
point on together with the number of execute/reflect cycles performed.
`reflect` models `analyze_results` with its oracle and the fixed
state/trigger, applied to the accumulated history. -/
def runCycles (fns : List FnS) (extracted : Val) (ex : String → Val → Except PyErr Val)
    (reflect : List Dict → List Dict) :
    Nat → List Dict → List Dict → List Dict × Nat
  | 0, _, _ => ([], 0)
  | _ + 1, [], _ => ([], 0)
  | fuel + 1, a :: rest, hist =>
    let entries := execActions fns extracted ex (a :: rest)
    let hist' := hist ++ entries
    if fuel = 0 then (entries, 1)
    else
      match reflect hist' with
      | [] => (entries, 1)
      | b :: brest =>
        let (more, c) := runCycles fns extracted ex reflect fuel (b :: brest) hist'
        (entries ++ more, c + 1)

/-- `max_cycles = trigger_data.get('max_cycles', 5) if complete_all_tasks
else 5` (line 481); the loop comparison requires the value to be a
number. -/
def maxCyclesOf (trig : Dict) : Except PyErr Int :=
  if truthy (dictGetD trig "complete_all_tasks" (.bool false)) then
    asIntE (dictGetD trig "max_cycles" (.int 5))
  else .ok 5

/-- `analyze_and_execute` (lines 447-573), also reporting the number of
cycles performed: Decision Engine (with its LLM oracle), then the bounded
execute/reflect loop starting from an empty history. -/
def analyzeAndExecuteRun (A : AgentS) (fns : List FnS) (llm : Except PyErr (List Dict))
    (reflect : List Dict → List Dict) (ex : String → Val → Except PyErr Val)
    (trig : Dict) : Except PyErr (List Dict × Nat) := do
  let extracted := dictGetD trig "extracted_params" (.dict [])
  let actions := analyzeState A fns llm trig
  if actions.isEmpty then pure ([], 0)
  else do
    let mc ← maxCyclesOf trig
    pure (runCycles fns extracted ex reflect mc.toNat actions [])

/-- The result list returned by `analyze_and_execute`. -/
def analyzeAndExecute (A : AgentS) (fns : List FnS) (llm : Except PyErr (List Dict))
    (reflect : List Dict → List Dict) (ex : String → Val → Except PyErr Val)
    (trig : Dict) : Except PyErr (List Dict) :=
  (analyzeAndExecuteRun A fns llm reflect ex trig).map (·.1)

/-! ### Parameter Completer: `_complete_missing_parameters` and helpers
(lines 1300-1400) -/

/-- `_extract_param_value_from_description` (lines 1362-1400): first address
in the original-case description for `address` params; first number after
the parameter name on the same line for integer params; keyword proximity
for `bool` params.  A non-string but truthy `param_type` raises at the
substring test, as in the source. -/
def extractParamValue (A : AgentS) (paramName : String) (paramType : Val) :
    Except PyErr (Option Val) := do
  if A.description == "" then pure Option.none
  else do
    let description := lowerStr A.description
    let pn := lowerStr paramName
    let addrHit : Option Val :=
      if Val.pyEq paramType (.str "address") then
        ((findAddresses A.description).head?).map (fun a => Val.str a)
      else Option.none
    match addrHit with
    | some v => pure (some v)
    | Option.none => do
      let intHit ←
        if truthy paramType then do
          let isInt ←
            match paramType with
            | .str t => pure (strContains t "int" || strContains t "uint")
            | _ => throw "TypeError: argument of type is not iterable"
          if isInt then pure ((searchContextNum pn description).map (fun n => Val.int n))
          else pure Option.none
        else pure Option.none
      match intHit with
      | some v => pure (some v)
      | Option.none =>
        if Val.pyEq paramType (.str "bool") then
          if searchContextWords pn ["true", "yes", "enable", "enabled", "active"] description then
            pure (some (.bool true))
          else if searchContextWords pn
              ["false", "no", "disable", "disabled", "inactive"] description then
            pure (some (.bool false))
          else pure Option.none
        else pure Option.none

/-- Loop of `_extract_params_from_description` (lines 1349-1358).  A truthy
non-string parameter name raises (`param_name.lower()` inside the
extractor), a falsy one is skipped. -/
def extractLoop (A : AgentS) : List Val → Dict → Except PyErr Dict
  | [], acc => .ok acc
  | ip :: rest, acc => do
    let nameV ← pyDictGetE ip "name" .none
    let tyV ← pyDictGetE ip "type" .none
    match nameV with
    | .str s =>
      if s == "" then extractLoop A rest acc
      else do
        match (← extractParamValue A s tyV) with
        | some v => extractLoop A rest (dictSet acc s v)
        | Option.none => extractLoop A rest acc
    | v =>
      if truthy v then throw "AttributeError: object has no attribute lower"
      else extractLoop A rest acc

/-- `_extract_params_from_description` (lines 1336-1360). -/
def extractParamsFromDescription (A : AgentS) (f : FnS) : Except PyErr Dict := do
  if !truthy f.abi then pure []
  else do
    if !(← pyInE (.str "inputs") f.abi) then pure []
    else do
      extractLoop A (← pyItemsE (← pyGetItemStrE f.abi "inputs")) []

/-- Loop of `_complete_missing_parameters` (lines 1325-1332): fill each
ABI-declared parameter name that is absent from the map. -/
def completeLoop (A : AgentS) : Dict → List Val → Except PyErr Dict
  | acc, [] => .ok acc
  | acc, ip :: rest => do
    let nameV ← pyDictGetE ip "name" .none
    match nameV with
    | .str s =>
      if s == "" then completeLoop A acc rest
      else if dictHasKey acc s then completeLoop A acc rest
      else do
        let tyV ← pyDictGetE ip "type" .none
        match (← extractParamValue A s tyV) with
        | some v => completeLoop A (dictSet acc s v) rest
        | Option.none => completeLoop A acc rest
    | v =>
      if truthy v then throw "AttributeError: object has no attribute lower"
      else completeLoop A acc rest

/-- `_complete_missing_parameters` (lines 1300-1334): unknown function or an
ABI without an `inputs` key returns the provided map unchanged; an empty
provided map with expected inputs delegates to the description extractor;
otherwise only missing ABI parameter names are filled. -/
def completeMissingParameters (A : AgentS) (fns : List FnS) (functionName : String)
    (provided : Dict) : Except PyErr Dict := do
  match fns.find? (fun f => f.function_name == functionName) with
  | Option.none => pure provided
  | some mf => do
    if (← pyInE (.str "inputs") mf.abi) then do
      let expected ← pyItemsE (← pyGetItemStrE mf.abi "inputs")
      if provided.isEmpty && !expected.isEmpty then
        extractParamsFromDescription A mf
      else
        completeLoop A provided expected
    else pure provided

/-- The declared parameter names of a list of ABI inputs (used to state the
frame property of the Parameter Completer). -/
def inputNamesOf (l : List Val) : List String :=
  l.filterMap (fun ip =>
    match ip with
    | .dict ikvs =>
      match dictGet ikvs "name" with
      | some (.str s) => some s
      | _ => Option.none
    | _ => Option.none)

/-- The ABI-declared parameter names of a function descriptor. -/
def abiInputNames (abi : Val) : List String :=
  match abi with
  | .dict kvs =>
    match dictGet kvs "inputs" with
    | some (.list xs) => inputNamesOf xs
    | _ => []
  | _ => []


/-! ### Claim theorems -/

/-- C6: the execution payload built by `execute_function` contains
`gasLimit` and `maxPriorityFee` exactly when the function's type is `write`
or `payable`, and contains neither field when the type is `read`. -/
theorem execute_payload_gas_iff (A : AgentS) (f : FnS) (params : Val) (p : Dict)
    (h : executeFunctionPayload A f params = .ok p) :
    ((dictHasKey p "gasLimit" = true ∧ dictHasKey p "maxPriorityFee" = true) ↔
      (f.function_type = "write" ∨ f.function_type = "payable")) ∧
    (f.function_type = "read" →
      dictHasKey p "gasLimit" = false ∧ dictHasKey p "maxPriorityFee" = false) := by
  unfold executeFunctionPayload at h
  cases hr : resolveFunctionAbi f A.contract_abi with
  | error e => rw [hr] at h; exact absurd h (by simp [Bind.bind, Except.bind])
  | ok abiUse =>
    rw [hr] at h
    simp only [Bind.bind, Except.bind] at h
    split at h <;> (injection h with h; subst h)
    case isTrue hty =>
      refine ⟨⟨fun _ => ?_, fun _ => ⟨by simp, by simp⟩⟩, fun hread => ?_⟩
      · simpa using hty
      · rcases (by simpa using hty : f.function_type = "write" ∨ f.function_type = "payable") with h1 | h1 <;>
          simp_all
    case isFalse hty =>
      refine ⟨⟨fun hk => absurd hk.1 (by simp), fun hor => absurd ?_ hty⟩,
        fun _ => ⟨by simp, by simp⟩⟩
      simpa using hor

/-- A concrete agent used by the concrete evaluations below. -/
def agentW : AgentS :=
  { agent_id := "a1", contract_id := "0xc", name := "n", description := "",
    owner := "0xo", gas_limit := Val.str "300000", max_priority_fee := Val.str "2",
    contract_state := Val.dict [], contract_abi := Val.none }

/-- A concrete enabled `mint` write function. -/
def mintFnW : FnS :=
  { function_id := "f1", function_name := "mint",
    function_signature := "mint(address,uint256)", function_type := "write",
    is_enabled := true, abi := Val.dict [("inputs", Val.list [])] }

/-- The payload `execute_function` builds for `mintFnW` with empty params. -/
def payloadW : Dict :=
  [("contractAddress", Val.str "0xc"),
   ("abi", Val.list [Val.dict [("inputs", Val.list [])]]),
   ("functionName", Val.str "mint"), ("inputs", Val.list []),
   ("gasLimit", Val.str "300000"), ("maxPriorityFee", Val.str "2")]

/-- Witness for C6 at a concrete write function. -/
theorem execute_payload_gas_iff_witness :
    executeFunctionPayload agentW mintFnW (Val.dict []) = .ok payloadW ∧
    ((dictHasKey payloadW "gasLimit" = true ∧ dictHasKey payloadW "maxPriorityFee" = true) ↔
      (mintFnW.function_type = "write" ∨ mintFnW.function_type = "payable")) :=
  ⟨rfl, (execute_payload_gas_iff agentW mintFnW (Val.dict []) payloadW rfl).1⟩

/-- The request `execute_function` hands to the dispatch for `mintFnW`
with params `{to, amount}`: the payload of C6 plus the `type` field stored
at line 371. -/
def requestW : Dict :=
  [("contractAddress", Val.str "0xc"),
   ("abi", Val.list [Val.dict [("inputs", Val.list [])]]),
   ("functionName", Val.str "mint"),
   ("inputs", Val.list [Val.str "0xa", Val.int 5]),
   ("gasLimit", Val.str "300000"), ("maxPriorityFee", Val.str "2"),
   ("type", Val.str "write")]

/-- C4 (evaluation at the failing input): for a plain `mint` write call the
route is selected from the type (`/contracts/write`), but the body POSTed to
that route still carries the `type` field — `execute_function` stores it
into `execution_data` at line 371 and `execute_contract_function` posts the
dict unchanged (`db_client.py:469`), contradicting the comment at line 334
and the claim that the type is never transmitted. -/
theorem execution_request_contains_type :
    executionRequest agentW mintFnW (Val.dict [("to", Val.str "0xa"), ("amount", Val.int 5)]) =
      .ok requestW ∧
    dictHasKey requestW "type" = true ∧
    contractEndpoint requestW = .ok "/contracts/write" :=
  ⟨rfl, rfl, rfl⟩

theorem pyEq_str_none (s : String) : Val.pyEq (Val.str s) Val.none = false := rfl

theorem pyEq_str_str (a b : String) : Val.pyEq (Val.str a) (Val.str b) = (a == b) := rfl

/-- An action whose `function` value matches no configured function is
skipped by the executor loop: no success entry and no error entry. -/
theorem execOne_of_find_none (fns : List FnS) (extracted : Val)
    (ex : String → Val → Except PyErr Val) (t : Dict)
    (hfind : fns.find? (fun f => Val.pyEq (Val.str f.function_name) (dictGetD t "function" Val.none)) =
      Option.none) :
    execOne fns extracted ex t = [] := by
  unfold execOne execBody
  simp [hfind, Bind.bind, Except.bind, pure, Except.pure]

/-- Every task produced by `_get_pending_tasks` uses the key
`function_name`, never `function`. -/
theorem pending_task_no_function_key (A : AgentS) (hist : List Dict) (tasks : List Dict)
    (hp : getPendingTasksE A hist = .ok tasks) :
    ∀ t ∈ tasks, dictGet t "function" = Option.none := by
  unfold getPendingTasksE at hp
  cases hm : mintedAddressesE hist with
  | error e => rw [hm] at hp; simp [Bind.bind, Except.bind] at hp
  | ok minted =>
    rw [hm] at hp
    simp only [Bind.bind, Except.bind, pure, Except.pure] at hp
    injection hp with hp
    subst hp
    intro t ht
    rcases List.mem_append.mp ht with h12 | hmint
    · rcases List.mem_append.mp h12 with h1 | h1 <;>
      · split at h1
        · rcases List.mem_singleton.mp h1 with rfl
          simp
        · exact absurd h1 (List.not_mem_nil t)
    · rcases List.mem_filterMap.mp hmint with ⟨addr, _, hf⟩
      split at hf
      · injection hf with hf
        subst hf
        simp
      · exact absurd hf (by simp)

/-- C8: every pending-task dict uses `function_name`/`parameters` while the
execution loop reads `function`/`params`, so a pending-task action fed back
into the cycle matches no function and contributes no result or error
entry. -/
theorem pending_tasks_not_executed (A : AgentS) (hist : List Dict) (tasks : List Dict)
    (fns : List FnS) (extracted : Val) (ex : String → Val → Except PyErr Val)
    (t : Dict) (rest : List Dict)
    (hp : getPendingTasksE A hist = .ok tasks) (ht : t ∈ tasks) :
    execActions fns extracted ex (t :: rest) = execActions fns extracted ex rest := by
  have h1 := pending_task_no_function_key A hist tasks hp t ht
  have h2 : dictGetD t "function" Val.none = Val.none := by
    rw [dictGetD_eq, h1]; rfl
  have hfind : fns.find?
      (fun f => Val.pyEq (Val.str f.function_name) (dictGetD t "function" Val.none)) =
      Option.none := by
    simp only [h2]
    rw [List.find?_eq_none]
    intro f _
    simp [pyEq_str_none]
  show execOne fns extracted ex t ++ execActions fns extracted ex rest = _
  rw [execOne_of_find_none fns extracted ex t hfind]
  simp

def okResultW : Val := Val.dict [("success", Val.bool true)]

def agentMintW : AgentS :=
  { agent_id := "a2", contract_id := "0xc", name := "n",
    description := "mint 5 tokens to 0xaaaaaaaaaaaaaaaaaaaaaaaaaaaaaaaaaaaaaaaa",
    owner := "0xo", gas_limit := Val.str "300000", max_priority_fee := Val.str "2",
    contract_state := Val.dict [], contract_abi := Val.none }

def pendingMintTaskW : Dict :=
  [("function_name", Val.str "mint"),
   ("parameters", Val.dict [("to", Val.str "0xaaaaaaaaaaaaaaaaaaaaaaaaaaaaaaaaaaaaaaaa"),
                            ("amount", Val.int 5)]),
   ("message", Val.str "Minting 5 tokens to 0xaaaaaaaaaaaaaaaaaaaaaaaaaaaaaaaaaaaaaaaa as specified in the agent description.")]

theorem pending_tasks_not_executed_witness :
    getPendingTasksE agentMintW [] = .ok [pendingMintTaskW] ∧
    execActions [mintFnW] (Val.dict []) (fun _ _ => Except.ok okResultW)
        (pendingMintTaskW :: []) =
      execActions [mintFnW] (Val.dict []) (fun _ _ => Except.ok okResultW) [] :=
  ⟨rfl, pending_tasks_not_executed agentMintW [] [pendingMintTaskW] [mintFnW]
    (Val.dict []) (fun _ _ => Except.ok okResultW) pendingMintTaskW [] rfl
    (List.mem_singleton.mpr rfl)⟩

/-- C1 (amended): an action whose `function` value does not equal the name
of any function in the agent's configured list is skipped by the execution
loop: it is not executed and contributes neither a success nor an error
entry.  (The `is_enabled` flag plays no role in this lookup.) -/
theorem unknown_function_action_skipped (fns : List FnS) (extracted : Val)
    (ex : String → Val → Except PyErr Val) (a : Dict) (rest : List Dict)
    (hnone : ∀ f ∈ fns,
      Val.pyEq (Val.str f.function_name) (dictGetD a "function" Val.none) = false) :
    execActions fns extracted ex (a :: rest) = execActions fns extracted ex rest := by
  have hfind : fns.find?
      (fun f => Val.pyEq (Val.str f.function_name) (dictGetD a "function" Val.none)) =
      Option.none := by
    rw [List.find?_eq_none]
    intro f hf
    simp [hnone f hf]
  show execOne fns extracted ex a ++ execActions fns extracted ex rest = _
  rw [execOne_of_find_none fns extracted ex a hfind]
  simp

def burnActionW : Dict :=
  [("function", Val.str "burn"), ("params", Val.dict [("amount", Val.int 1)]),
   ("message", Val.str "burning")]

theorem unknown_function_action_skipped_witness :
    (∀ f ∈ [mintFnW],
      Val.pyEq (Val.str f.function_name) (dictGetD burnActionW "function" Val.none) = false) ∧
    execActions [mintFnW] (Val.dict []) (fun _ _ => Except.ok okResultW) [burnActionW] = [] :=
  ⟨by intro f hf; rcases List.mem_singleton.mp hf with rfl; rfl,
   by rw [unknown_function_action_skipped [mintFnW] (Val.dict [])
        (fun _ _ => Except.ok okResultW) burnActionW []
        (by intro f hf; rcases List.mem_singleton.mp hf with rfl; rfl)]; rfl⟩

def mintActionW : Dict :=
  [("function", Val.str "mint"),
   ("params", Val.dict [("to", Val.str "0xa"), ("amount", Val.int 100)]),
   ("message", Val.str "minting")]

def disabledMintFnW : FnS :=
  { function_id := "f2", function_name := "mint",
    function_signature := "mint(address,uint256)", function_type := "write",
    is_enabled := false, abi := Val.dict [("inputs", Val.list [])] }

/-- C1 (counterexample): a `mint` function with `is_enabled = false` named
by the LLM is still matched by the execution loop (the lookup at lines
518-523 only compares names) and is executed, contributing a success entry. -/
theorem disabled_function_executed :
    analyzeAndExecute agentW [disabledMintFnW] (.ok [mintActionW]) (fun _ => [])
        (fun _ _ => .ok okResultW) [] =
      .ok [[("function", Val.str "mint"),
            ("params", Val.dict [("to", Val.str "0xa"), ("amount", Val.int 100)]),
            ("result", okResultW), ("message", Val.str "minting")]] := rfl

/-- The loop performs at most `fuel` cycles. -/
theorem runCycles_cycles_le (fns : List FnS) (extracted : Val)
    (ex : String → Val → Except PyErr Val) (reflect : List Dict → List Dict) :
    ∀ fuel actions hist, (runCycles fns extracted ex reflect fuel actions hist).2 ≤ fuel := by
  intro fuel
  induction fuel with
  | zero => intro actions hist; exact Nat.le_refl 0
  | succ n ih =>
    intro actions hist
    match actions with
    | [] => simp [runCycles]
    | a :: rest =>
      simp only [runCycles]
      split
      · simp
      · split
        · simp
        · rename_i b brest hne
          rcases hrc : runCycles fns extracted ex reflect n (b :: brest)
              (hist ++ execActions fns extracted ex (a :: rest)) with ⟨more, c⟩
          have hle := ih (b :: brest) (hist ++ execActions fns extracted ex (a :: rest))
          rw [hrc] at hle
          simp [hrc]
          omega

/-- With a reflection engine that immediately reports completion, the loop
stops after at most one cycle. -/
theorem runCycles_const_empty (fns : List FnS) (extracted : Val)
    (ex : String → Val → Except PyErr Val) (reflect : List Dict → List Dict)
    (hrefl : ∀ l, reflect l = []) :
    ∀ fuel actions hist, (runCycles fns extracted ex reflect fuel actions hist).2 ≤ 1 := by
  intro fuel actions hist
  match fuel, actions with
  | 0, _ => exact Nat.zero_le 1
  | n + 1, [] => simp [runCycles]
  | n + 1, a :: rest =>
    simp only [runCycles]
    split
    · simp
    · rw [hrefl]

/-- C2 (amended): `analyze_and_execute` always terminates; it performs at
most `max_cycles` execute/reflect cycles, where `max_cycles` is the
trigger's value only when `complete_all_tasks` is set and 5 otherwise (no
ceiling is applied to the trigger's value), and it stops after the cycle in
which reflection returns the empty list. -/
theorem analyze_and_execute_bounded (A : AgentS) (fns : List FnS)
    (llm : Except PyErr (List Dict)) (reflect : List Dict → List Dict)
    (ex : String → Val → Except PyErr Val) (trig : Dict) (res : List Dict) (cycles : Nat)
    (h : analyzeAndExecuteRun A fns llm reflect ex trig = .ok (res, cycles)) :
    (∀ mc, maxCyclesOf trig = .ok mc → cycles ≤ mc.toNat) ∧
    (truthy (dictGetD trig "complete_all_tasks" (.bool false)) = false → cycles ≤ 5) ∧
    ((∀ l, reflect l = []) → cycles ≤ 1) := by
  unfold analyzeAndExecuteRun at h
  dsimp only at h
  split at h
  · -- no initial actions: 0 cycles
    simp only [pure, Except.pure, Except.ok.injEq, Prod.mk.injEq] at h
    obtain ⟨-, hc⟩ := h
    subst hc
    exact ⟨fun _ _ => Nat.zero_le _, fun _ => Nat.zero_le _, fun _ => Nat.zero_le _⟩
  · cases hmc : maxCyclesOf trig with
    | error e => rw [hmc] at h; exact absurd h (by simp [Bind.bind, Except.bind])
    | ok mc =>
      rw [hmc] at h
      simp only [Bind.bind, Except.bind, pure, Except.pure, Except.ok.injEq] at h
      have hc : cycles =
          (runCycles fns (dictGetD trig "extracted_params" (Val.dict []))
            ex reflect mc.toNat (analyzeState A fns llm trig) []).2 := by
        rw [h]
      refine ⟨fun mc' hmc' => ?_, fun hcomp => ?_, fun hrefl => ?_⟩
      · injection hmc' with he
        subst he
        rw [hc]
        exact runCycles_cycles_le _ _ _ _ _ _ _
      · have h5 : maxCyclesOf trig = .ok 5 := by simp [maxCyclesOf, hcomp]
        rw [hmc] at h5
        injection h5 with h5
        rw [hc, h5]
        exact runCycles_cycles_le _ _ _ _ _ _ _
      · rw [hc]
        exact runCycles_const_empty _ _ _ _ hrefl _ _ _

/-- The success entry the loop records for `mintActionW`. -/
def mintEntryW : Dict :=
  [("function", Val.str "mint"),
   ("params", Val.dict [("to", Val.str "0xa"), ("amount", Val.int 100)]),
   ("result", okResultW), ("message", Val.str "minting")]

/-- C2 (counterexample): with `complete_all_tasks` unset, a trigger-supplied
`max_cycles` of 2 is ignored (line 481 only honours it under
`complete_all_tasks`): against a reflection engine that always returns a
non-empty batch the run performs 5 cycles, not at most 2. -/
theorem trigger_max_cycles_ignored :
    (analyzeAndExecuteRun agentW [mintFnW] (.ok [mintActionW]) (fun _ => [mintActionW])
        (fun _ _ => .ok okResultW) [("max_cycles", Val.int 2)]).map Prod.snd =
      .ok 5 := rfl

/-- Witness for C2 at a concrete run that stops after one cycle. -/
theorem analyze_and_execute_bounded_witness :
    analyzeAndExecuteRun agentW [mintFnW] (Except.ok [mintActionW]) (fun _ => [])
        (fun _ _ => .ok okResultW) [] = .ok ([mintEntryW], 1) ∧ (1 : Nat) ≤ (5 : Int).toNat :=
  ⟨rfl, (analyze_and_execute_bounded agentW [mintFnW] (Except.ok [mintActionW]) (fun _ => [])
    (fun _ _ => .ok okResultW) [] [mintEntryW] 1 rfl).1 5 rfl⟩

/-- C7: pending-task derivation is a pure function of the agent description
and the history (so re-running it on the same history yields the same list),
and a mint task is only ever emitted for an address that does not appear as
the `to` parameter of a mint entry anywhere in the history. -/
theorem pending_tasks_idempotent_deduped (A : AgentS) (hist : List Dict)
    (tasks : List Dict) (minted : List Val)
    (hp : getPendingTasksE A hist = .ok tasks)
    (hm : mintedAddressesE hist = .ok minted) :
    getPendingTasksE A hist = .ok tasks ∧
    ∀ t ∈ tasks, dictGet t "function_name" = some (Val.str "mint") →
      ∃ addr amount, dictGet t "parameters" =
          some (Val.dict [("to", Val.str addr), ("amount", Val.int amount)]) ∧
        pyMemList (Val.str addr) minted = false := by
  refine ⟨hp, ?_⟩
  unfold getPendingTasksE at hp
  rw [hm] at hp
  simp only [Bind.bind, Except.bind, pure, Except.pure] at hp
  injection hp with hp
  subst hp
  intro t ht hfn
  rcases List.mem_append.mp ht with h12 | hmint
  · rcases List.mem_append.mp h12 with h1 | h1 <;>
    · split at h1
      · rcases List.mem_singleton.mp h1 with rfl
        simp at hfn
      · exact absurd h1 (List.not_mem_nil t)
  · rcases List.mem_filterMap.mp hmint with ⟨addr, _, hf⟩
    split at hf
    · rename_i hcond
      injection hf with hf
      subst hf
      refine ⟨addr, (findTokensAmounts (lowerStr A.description)).headD 5000000, by simp, ?_⟩
      simp only [Bool.and_eq_true, Bool.not_eq_true'] at hcond
      exact hcond.1
    · exact absurd hf (by simp)

/-- Witness for C7: a description mentioning one address and "mint", with an
empty history, yields exactly the deduplicated mint task. -/
theorem pending_tasks_idempotent_deduped_witness :
    getPendingTasksE agentMintW [] = .ok [pendingMintTaskW] ∧
    (∃ addr amount, dictGet pendingMintTaskW "parameters" =
        some (Val.dict [("to", Val.str addr), ("amount", Val.int amount)]) ∧
      pyMemList (Val.str addr) [] = false) :=
  ⟨rfl, (pending_tasks_idempotent_deduped agentMintW [] [pendingMintTaskW] [] rfl rfl).2
    pendingMintTaskW (List.mem_singleton.mpr rfl) rfl⟩

theorem dictSet_not_hasKey (d : Dict) (k : String) (v : Val)
    (h : dictHasKey d k = false) : dictSet d k v = d ++ [(k, v)] := by
  simp [dictSet, h]

theorem dictGet_append_left (d e : Dict) (k : String) (v : Val)
    (h : dictGet d k = some v) : dictGet (d ++ e) k = some v := by
  induction d with
  | nil => simp at h
  | cons kv rest ih =>
    obtain ⟨k₀, v₀⟩ := kv
    rw [List.cons_append]
    by_cases hk : (k₀ == k) = true
    · simp [hk] at h ⊢; exact h
    · simp [hk] at h ⊢; exact ih h

theorem dictGet_append_isSome (d e : Dict) (k : String) :
    (dictGet (d ++ e) k).isSome = ((dictGet d k).isSome || (dictGet e k).isSome) := by
  induction d with
  | nil => simp
  | cons kv rest ih =>
    obtain ⟨k₀, v₀⟩ := kv
    rw [List.cons_append]
    by_cases hk : (k₀ == k) = true <;> simp [hk, ih]

theorem dictGet_map_set_isSome (k : String) (v : Val) (k' : String) :
    ∀ d : Dict,
      (dictGet (d.map (fun kv => if kv.1 == k then (k, v) else kv)) k').isSome =
        (dictGet d k').isSome := by
  intro d
  induction d with
  | nil => rfl
  | cons kv rest ih =>
    obtain ⟨k₀, v₀⟩ := kv
    by_cases hk : k₀ = k
    · subst hk
      by_cases hk' : k₀ = k'
      · subst hk'; simp
      · simp [hk']
        simpa using ih
    · by_cases hk' : k₀ = k'
      · subst hk'; simp [hk]
      · simp [hk, hk']
        simpa using ih

theorem dictGet_dictSet_isSome (d : Dict) (k : String) (v : Val) (k' : String)
    (h : (dictGet (dictSet d k v) k').isSome = true) :
    (dictGet d k').isSome = true ∨ k' = k := by
  unfold dictSet at h
  split at h
  · rw [dictGet_map_set_isSome] at h
    exact Or.inl h
  · rw [dictGet_append_isSome] at h
    simp only [dictGet_cons, dictGet_nil, Bool.or_eq_true] at h
    rcases h with h1 | h1
    · exact Or.inl h1
    · right
      by_cases hk : (k == k') = true
      · exact (by simpa using hk : k = k').symm
      · simp [hk] at h1

theorem inputNamesOf_map_str {β : Type} (g : β → String) (l : List β) :
    inputNamesOf (l.map (fun b => Val.str (g b))) = [] := by
  induction l with
  | nil => rfl
  | cons b rest ih => simpa [inputNamesOf, List.filterMap_cons] using ih

/-- `_complete_missing_parameters` never changes or removes a binding that
is already present: the loop only writes keys absent from the map. -/
theorem completeLoop_preserves (A : AgentS) :
    ∀ (l : List Val) (acc res : Dict), completeLoop A acc l = .ok res →
      ∀ k v, dictGet acc k = some v → dictGet res k = some v := by
  intro l
  induction l with
  | nil =>
    intro acc res h k v hk
    injection h with h
    subst h
    exact hk
  | cons ip rest ih =>
    intro acc res h k v hk
    unfold completeLoop at h
    cases hn : pyDictGetE ip "name" Val.none with
    | error e => rw [hn] at h; simp [Bind.bind, Except.bind] at h
    | ok nameV =>
      rw [hn] at h
      simp only [Bind.bind, Except.bind] at h
      cases nameV with
      | str s =>
        dsimp only at h
        by_cases hs : (s == "") = true
        · rw [if_pos hs] at h
          exact ih acc res h k v hk
        · rw [if_neg hs] at h
          by_cases hkey : dictHasKey acc s = true
          · rw [if_pos hkey] at h
            exact ih acc res h k v hk
          · rw [if_neg hkey] at h
            cases hty : pyDictGetE ip "type" Val.none with
            | error e => rw [hty] at h; simp [Bind.bind, Except.bind] at h
            | ok tyV =>
              rw [hty] at h
              simp only [Bind.bind, Except.bind] at h
              cases hev : extractParamValue A s tyV with
              | error e => rw [hev] at h; simp at h
              | ok opt =>
                rw [hev] at h
                dsimp only at h
                cases opt with
                | none => exact ih acc res h k v hk
                | some v' =>
                  refine ih (dictSet acc s v') res h k v ?_
                  rw [dictSet_not_hasKey acc s v' (by simpa using hkey)]
                  exact dictGet_append_left acc [(s, v')] k v hk
      | none =>
        dsimp only at h
        exact ih acc res h k v hk
      | bool b =>
        dsimp only at h
        split at h
        · simp [throw, throwThe, MonadExceptOf.throw] at h
        · exact ih acc res h k v hk
      | int n =>
        dsimp only at h
        split at h
        · simp [throw, throwThe, MonadExceptOf.throw] at h
        · exact ih acc res h k v hk
      | list xs =>
        dsimp only at h
        split at h
        · simp [throw, throwThe, MonadExceptOf.throw] at h
        · exact ih acc res h k v hk
      | dict kvs =>
        dsimp only at h
        split at h
        · simp [throw, throwThe, MonadExceptOf.throw] at h
        · exact ih acc res h k v hk

theorem inputNamesOf_cons_superset (ip : Val) (rest : List Val) (k : String)
    (h : k ∈ inputNamesOf rest) : k ∈ inputNamesOf (ip :: rest) := by
  unfold inputNamesOf at *
  rw [List.filterMap_cons]
  split
  · exact h
  · exact List.mem_cons_of_mem _ h

theorem inputNamesOf_cons_self (ikvs : List (String × Val)) (rest : List Val) (s : String)
    (h : dictGet ikvs "name" = some (Val.str s)) :
    s ∈ inputNamesOf (Val.dict ikvs :: rest) := by
  unfold inputNamesOf
  rw [List.filterMap_cons]
  simp [h]

/-- The name written by a loop step is an ABI-declared input name. -/
theorem pyDictGetE_name_mem (ip : Val) (rest : List Val) (s : String)
    (hn : pyDictGetE ip "name" Val.none = .ok (Val.str s)) :
    s ∈ inputNamesOf (ip :: rest) := by
  cases ip with
  | dict ikvs =>
    unfold pyDictGetE at hn
    injection hn with hn
    apply inputNamesOf_cons_self
    rw [dictGetD_eq] at hn
    cases hg : dictGet ikvs "name" with
    | none => rw [hg] at hn; exact absurd hn (by simp [Option.getD])
    | some x => rw [hg] at hn; simp [Option.getD] at hn; rw [hn]
  | none => exact absurd hn (by simp [pyDictGetE])
  | bool b => exact absurd hn (by simp [pyDictGetE])
  | int n => exact absurd hn (by simp [pyDictGetE])
  | str t => exact absurd hn (by simp [pyDictGetE])
  | list xs => exact absurd hn (by simp [pyDictGetE])

/-- `_complete_missing_parameters` only adds ABI-declared parameter names. -/
theorem completeLoop_additions (A : AgentS) :
    ∀ (l : List Val) (acc res : Dict), completeLoop A acc l = .ok res →
      ∀ k, (dictGet res k).isSome = true →
        (dictGet acc k).isSome = true ∨ k ∈ inputNamesOf l := by
  intro l
  induction l with
  | nil =>
    intro acc res h k hk
    injection h with h
    subst h
    exact Or.inl hk
  | cons ip rest ih =>
    intro acc res h k hk
    unfold completeLoop at h
    cases hn : pyDictGetE ip "name" Val.none with
    | error e => rw [hn] at h; simp [Bind.bind, Except.bind] at h
    | ok nameV =>
      rw [hn] at h
      simp only [Bind.bind, Except.bind] at h
      cases nameV with
      | str s =>
        dsimp only at h
        by_cases hs : (s == "") = true
        · rw [if_pos hs] at h
          rcases ih acc res h k hk with h1 | h1
          · exact Or.inl h1
          · exact Or.inr (inputNamesOf_cons_superset ip rest k h1)
        · rw [if_neg hs] at h
          by_cases hkey : dictHasKey acc s = true
          · rw [if_pos hkey] at h
            rcases ih acc res h k hk with h1 | h1
            · exact Or.inl h1
            · exact Or.inr (inputNamesOf_cons_superset ip rest k h1)
          · rw [if_neg hkey] at h
            cases hty : pyDictGetE ip "type" Val.none with
            | error e => rw [hty] at h; simp [Bind.bind, Except.bind] at h
            | ok tyV =>
              rw [hty] at h
              simp only [Bind.bind, Except.bind] at h
              cases hev : extractParamValue A s tyV with
              | error e => rw [hev] at h; simp at h
              | ok opt =>
                rw [hev] at h
                dsimp only at h
                cases opt with
                | none =>
                  rcases ih acc res h k hk with h1 | h1
                  · exact Or.inl h1
                  · exact Or.inr (inputNamesOf_cons_superset ip rest k h1)
                | some v' =>
                  rcases ih (dictSet acc s v') res h k hk with h1 | h1
                  · rcases dictGet_dictSet_isSome acc s v' k h1 with h2 | h2
                    · exact Or.inl h2
                    · subst h2
                      exact Or.inr (pyDictGetE_name_mem ip rest k hn)
                  · exact Or.inr (inputNamesOf_cons_superset ip rest k h1)
      | none =>
        dsimp only at h
        rcases ih acc res h k hk with h1 | h1
        · exact Or.inl h1
        · exact Or.inr (inputNamesOf_cons_superset ip rest k h1)
      | bool b =>
        dsimp only at h
        split at h
        · simp [throw, throwThe, MonadExceptOf.throw] at h
        · rcases ih acc res h k hk with h1 | h1
          · exact Or.inl h1
          · exact Or.inr (inputNamesOf_cons_superset ip rest k h1)
      | int n =>
        dsimp only at h
        split at h
        · simp [throw, throwThe, MonadExceptOf.throw] at h
        · rcases ih acc res h k hk with h1 | h1
          · exact Or.inl h1
          · exact Or.inr (inputNamesOf_cons_superset ip rest k h1)
      | list xs =>
        dsimp only at h
        split at h
        · simp [throw, throwThe, MonadExceptOf.throw] at h
        · rcases ih acc res h k hk with h1 | h1
          · exact Or.inl h1
          · exact Or.inr (inputNamesOf_cons_superset ip rest k h1)
      | dict kvs =>
        dsimp only at h
        split at h
        · simp [throw, throwThe, MonadExceptOf.throw] at h
        · rcases ih acc res h k hk with h1 | h1
          · exact Or.inl h1
          · exact Or.inr (inputNamesOf_cons_superset ip rest k h1)

/-- `_extract_params_from_description` only fills ABI-declared names. -/
theorem extractLoop_additions (A : AgentS) :
    ∀ (l : List Val) (acc res : Dict), extractLoop A l acc = .ok res →
      ∀ k, (dictGet res k).isSome = true →
        (dictGet acc k).isSome = true ∨ k ∈ inputNamesOf l := by
  intro l
  induction l with
  | nil =>
    intro acc res h k hk
    injection h with h
    subst h
    exact Or.inl hk
  | cons ip rest ih =>
    intro acc res h k hk
    unfold extractLoop at h
    cases hn : pyDictGetE ip "name" Val.none with
    | error e => rw [hn] at h; simp [Bind.bind, Except.bind] at h
    | ok nameV =>
      rw [hn] at h
      simp only [Bind.bind, Except.bind] at h
      cases hty : pyDictGetE ip "type" Val.none with
      | error e => rw [hty] at h; simp at h
      | ok tyV =>
        rw [hty] at h
        simp only at h
        cases nameV with
        | str s =>
          dsimp only at h
          by_cases hs : (s == "") = true
          · rw [if_pos hs] at h
            rcases ih acc res h k hk with h1 | h1
            · exact Or.inl h1
            · exact Or.inr (inputNamesOf_cons_superset ip rest k h1)
          · rw [if_neg hs] at h
            cases hev : extractParamValue A s tyV with
            | error e => rw [hev] at h; simp [Bind.bind, Except.bind] at h
            | ok opt =>
              rw [hev] at h
              dsimp only at h
              cases opt with
              | none =>
                rcases ih acc res h k hk with h1 | h1
                · exact Or.inl h1
                · exact Or.inr (inputNamesOf_cons_superset ip rest k h1)
              | some v' =>
                rcases ih (dictSet acc s v') res h k hk with h1 | h1
                · rcases dictGet_dictSet_isSome acc s v' k h1 with h2 | h2
                  · exact Or.inl h2
                  · subst h2
                    exact Or.inr (pyDictGetE_name_mem ip rest k hn)
                · exact Or.inr (inputNamesOf_cons_superset ip rest k h1)
        | none =>
          dsimp only at h
          rcases ih acc res h k hk with h1 | h1
          · exact Or.inl h1
          · exact Or.inr (inputNamesOf_cons_superset ip rest k h1)
        | bool b =>
          dsimp only at h
          split at h
          · simp [throw, throwThe, MonadExceptOf.throw] at h
          · rcases ih acc res h k hk with h1 | h1
            · exact Or.inl h1
            · exact Or.inr (inputNamesOf_cons_superset ip rest k h1)
        | int n =>
          dsimp only at h
          split at h
          · simp [throw, throwThe, MonadExceptOf.throw] at h
          · rcases ih acc res h k hk with h1 | h1
            · exact Or.inl h1
            · exact Or.inr (inputNamesOf_cons_superset ip rest k h1)
        | list xs =>
          dsimp only at h
          split at h
          · simp [throw, throwThe, MonadExceptOf.throw] at h
          · rcases ih acc res h k hk with h1 | h1
            · exact Or.inl h1
            · exact Or.inr (inputNamesOf_cons_superset ip rest k h1)
        | dict kvs =>
          dsimp only at h
          split at h
          · simp [throw, throwThe, MonadExceptOf.throw] at h
          · rcases ih acc res h k hk with h1 | h1
            · exact Or.inl h1
            · exact Or.inr (inputNamesOf_cons_superset ip rest k h1)

theorem inputNames_expected_sub (abi val : Val) (expected : List Val)
    (hgi : pyGetItemStrE abi "inputs" = .ok val)
    (hit : pyItemsE val = .ok expected) :
    ∀ k, k ∈ inputNamesOf expected → k ∈ abiInputNames abi := by
  intro k hk
  cases abi with
  | dict kvs =>
    unfold pyGetItemStrE at hgi
    dsimp only at hgi
    cases hg : dictGet kvs "inputs" with
    | none => rw [hg] at hgi; simp at hgi
    | some x =>
      rw [hg] at hgi
      injection hgi with hgi
      subst hgi
      unfold abiInputNames
      dsimp only
      rw [hg]
      cases x with
      | list xs =>
        simp only [pyItemsE] at hit
        injection hit with hit
        subst hit
        exact hk
      | str s =>
        simp only [pyItemsE] at hit
        injection hit with hit
        rw [← hit, inputNamesOf_map_str] at hk
        exact absurd hk (List.not_mem_nil k)
      | dict kvs' =>
        simp only [pyItemsE] at hit
        injection hit with hit
        rw [← hit, inputNamesOf_map_str] at hk
        exact absurd hk (List.not_mem_nil k)
      | none => simp [pyItemsE] at hit
      | bool b => simp [pyItemsE] at hit
      | int n => simp [pyItemsE] at hit
  | none => simp [pyGetItemStrE] at hgi
  | bool b => simp [pyGetItemStrE] at hgi
  | int n => simp [pyGetItemStrE] at hgi
  | str s => simp [pyGetItemStrE] at hgi
  | list xs => simp [pyGetItemStrE] at hgi

/-- C9: `_complete_missing_parameters` never changes or removes a parameter
already present in the provided map (every provided binding survives with
the identical value), and every key present in the result but not in the
input is an ABI-declared parameter name of the matched function. -/
theorem complete_missing_parameters_frame (A : AgentS) (fns : List FnS)
    (functionName : String) (provided res : Dict)
    (h : completeMissingParameters A fns functionName provided = .ok res) :
    (∀ k v, dictGet provided k = some v → dictGet res k = some v) ∧
    (∀ k, (dictGet res k).isSome = true → (dictGet provided k).isSome = true ∨
      ∃ mf, fns.find? (fun f => f.function_name == functionName) = some mf ∧
        k ∈ abiInputNames mf.abi) := by
  unfold completeMissingParameters at h
  cases hfind : fns.find? (fun f => f.function_name == functionName) with
  | none =>
    rw [hfind] at h
    simp only [pure, Except.pure] at h
    injection h with h
    subst h
    exact ⟨fun _ _ hk => hk, fun _ hk => Or.inl hk⟩
  | some mf =>
    rw [hfind] at h
    dsimp only at h
    cases hin : pyInE (Val.str "inputs") mf.abi with
    | error e => rw [hin] at h; simp [Bind.bind, Except.bind] at h
    | ok b =>
      rw [hin] at h
      simp only [Bind.bind, Except.bind] at h
      cases b with
      | false =>
        rw [if_neg Bool.false_ne_true] at h
        simp only [pure, Except.pure] at h
        injection h with h
        subst h
        exact ⟨fun _ _ hk => hk, fun _ hk => Or.inl hk⟩
      | true =>
        rw [if_pos rfl] at h
        cases hgi : pyGetItemStrE mf.abi "inputs" with
        | error e => rw [hgi] at h; simp at h
        | ok val =>
          rw [hgi] at h
          dsimp only at h
          cases hit : pyItemsE val with
          | error e => rw [hit] at h; simp at h
          | ok expected =>
            rw [hit] at h
            dsimp only at h
            split at h
            · rename_i hcond
              have hprov : provided = [] := by
                rcases provided with _ | ⟨kv, rest⟩
                · rfl
                · simp [List.isEmpty] at hcond
              subst hprov
              refine ⟨fun k v hk => by simp at hk, fun k hk => ?_⟩
              right
              refine ⟨mf, rfl, ?_⟩
              unfold extractParamsFromDescription at h
              by_cases htr : truthy mf.abi = true
              · rw [htr] at h
                rw [if_neg (by simp)] at h
                rw [hin] at h
                simp only [Bind.bind, Except.bind] at h
                rw [if_neg (by simp)] at h
                rw [hgi] at h
                try simp only [Bind.bind, Except.bind] at h
                try dsimp only at h
                rw [hit] at h
                try simp only [Bind.bind, Except.bind] at h
                try dsimp only at h
                rcases extractLoop_additions A expected [] res h k hk with h1 | h1
                · simp at h1
                · exact inputNames_expected_sub mf.abi val expected hgi hit k h1
              · rw [Bool.not_eq_true] at htr
                rw [htr] at h
                rw [if_pos (by simp)] at h
                simp only [pure, Except.pure] at h
                injection h with h
                subst h
                simp at hk
            · refine ⟨fun k v hk => completeLoop_preserves A expected provided res h k v hk,
                fun k hk => ?_⟩
              rcases completeLoop_additions A expected provided res h k hk with h1 | h1
              · exact Or.inl h1
              · exact Or.inr ⟨mf, rfl, inputNames_expected_sub mf.abi val expected hgi hit k h1⟩

/-- Witness for C9: a provided `to` parameter is preserved untouched. -/
theorem complete_missing_parameters_frame_witness :
    completeMissingParameters agentW [mintFnW] "mint" [("to", Val.str "0xa")] =
      .ok [("to", Val.str "0xa")] ∧
    dictGet [("to", Val.str "0xa")] "to" = some (Val.str "0xa") :=
  ⟨rfl, (complete_missing_parameters_frame agentW [mintFnW] "mint"
    [("to", Val.str "0xa")] [("to", Val.str "0xa")] rfl).1 "to" (Val.str "0xa") rfl⟩

/-- A concrete enabled `balanceOf` read function. -/
def balanceFnW : FnS :=
  { function_id := "f3", function_name := "balanceOf",
    function_signature := "balanceOf(address)", function_type := "read",
    is_enabled := true,
    abi := Val.dict [("inputs",
      Val.list [Val.dict [("name", Val.str "account"), ("type", Val.str "address")]])] }

/-- An agent with an empty description (so no pending tasks arise). -/
def agentC3 : AgentS :=
  { agent_id := "a3", contract_id := "0xc", name := "n", description := "",
    owner := "0xowner", gas_limit := Val.str "300000", max_priority_fee := Val.str "2",
    contract_state := Val.dict [], contract_abi := Val.none }

/-- Extracted parameters with given behaviors, one address and the
threshold/mint amounts. -/
def trigC3 (behaviors : List Val) (t m : Int) (addr : String) : Dict :=
  [("extracted_params", Val.dict
    [("behaviors", Val.list behaviors),
     ("addresses", Val.list [Val.str addr]),
     ("amounts", Val.list [Val.int t, Val.int m])])]

/-- A successful balance read observing `b`. -/
def balEntryC3 (b : Int) : Dict :=
  [("function", Val.str "balanceOf"),
   ("params", Val.dict [("account", Val.str "0xabc")]),
   ("result", Val.dict [("success", Val.bool true), ("data", Val.int b)]),
   ("message", Val.none)]

/-- A mint entry for `addr`. -/
def mintEntryC3 (addr : String) : Dict :=
  [("function", Val.str "mint"),
   ("params", Val.dict [("to", Val.str addr), ("amount", Val.int 1)]),
   ("result", Val.dict [("success", Val.bool true)]),
   ("message", Val.none)]

theorem reflection_mint_below (b t m : Int) (addr : String) (hb : b ≠ 0) (hlt : b < t) :
    analyzeResultsDet agentC3 [balanceFnW, mintFnW]
      (trigC3 [Val.str "check", Val.str "mint"] t m addr) [balEntryC3 b] =
    .ok (some [[("function", Val.str "mint"),
      ("params", Val.dict [("to", Val.str addr), ("amount", Val.int m)]),
      ("message", Val.str ("Minting " ++ toString m ++ " tokens to " ++ addr
        ++ " to meet threshold of " ++ toString t))]]) := by
  have hb' : truthy (Val.int b) = true := by simp [truthy, hb]
  have hlt' : decide (b < t) = true := decide_eq_true hlt
  have hpend : getPendingTasksE agentC3 [balEntryC3 b] = .ok [] := rfl
  have hrev : [balEntryC3 b].reverse = [balEntryC3 b] := rfl
  have hflb : findLastBalance [balEntryC3 b] = .ok (some (balEntryC3 b)) := rfl
  have hhk : dictHasKey (balEntryC3 b) "result" = true := rfl
  have hres : dictGet (balEntryC3 b) "result" =
      some (Val.dict [("success", Val.bool true), ("data", Val.int b)]) := rfl
  have hfm : List.find? (fun f => lowerStr f.function_name == "mint" && f.function_type == "write")
      [balanceFnW, mintFnW] = some mintFnW := rfl
  have hmn : mintFnW.function_name = "mint" := rfl
  unfold analyzeResultsDet reflectionHeuristic reflectionTry
  simp [hb, hpend, hrev, hflb, hhk, hres, hfm, hmn, hb', hlt', Bind.bind, Except.bind,
    pure, Except.pure, pyDictGetE, pyAnyMem, pyInE, pyMemList, Val.pyEq, pyInt,
    pyLen, pyIndexNat, pyLtIntVal, catchVTErr, truthy, pyIndex0, pyStr, pyRepr,
    dictGetD_eq, Option.getD, trigC3]

theorem reflection_recheck_below (b t m : Int) (addr : String) (hb : b ≠ 0) (hlt : b < t) :
    analyzeResultsDet agentC3 [balanceFnW, mintFnW]
      (trigC3 [Val.str "check"] t m addr) [balEntryC3 b, mintEntryC3 addr] =
    .ok (some [[("function", Val.str "balanceOf"),
      ("params", Val.dict [("account", Val.str addr)]),
      ("message", Val.str ("Checking updated balance after mint for " ++ addr))]]) := by
  have hb' : truthy (Val.int b) = true := by simp [truthy, hb]
  have hlt' : decide (b < t) = true := decide_eq_true hlt
  have hpend : getPendingTasksE agentC3 [balEntryC3 b, mintEntryC3 addr] = .ok [] := rfl
  have hrev : [balEntryC3 b, mintEntryC3 addr].reverse = [mintEntryC3 addr, balEntryC3 b] := rfl
  have hflb : findLastBalance [mintEntryC3 addr, balEntryC3 b] = .ok (some (balEntryC3 b)) := rfl
  have hhk : dictHasKey (balEntryC3 b) "result" = true := rfl
  have hres : dictGet (balEntryC3 b) "result" =
      some (Val.dict [("success", Val.bool true), ("data", Val.int b)]) := rfl
  have hlast : [balEntryC3 b, mintEntryC3 addr].getLast? = some (mintEntryC3 addr) := rfl
  have hmf : dictGetD (mintEntryC3 addr) "function" Val.none = Val.str "mint" := rfl
  have hlm : lowerStr "mint" = "mint" := rfl
  have hfb : List.find? (fun f =>
      (lowerStr f.function_name == "balanceof" || lowerStr f.function_name == "balance")
      && f.function_type == "read") [balanceFnW, mintFnW] = some balanceFnW := rfl
  have hbn : balanceFnW.function_name = "balanceOf" := rfl
  unfold analyzeResultsDet reflectionHeuristic reflectionTry
  simp [hb, hpend, hrev, hflb, hhk, hres, hlast, hmf, hlm, hfb, hbn, hb', hlt',
    Bind.bind, Except.bind, pure, Except.pure, pyDictGetE, pyAnyMem, pyInE,
    pyMemList, Val.pyEq, pyInt, pyLen, pyIndexNat, pyLtIntVal, catchVTErr,
    truthy, pyIndex0, pyStr, pyRepr, dictGetD_eq, Option.getD, trigC3]

theorem reflection_none_above (b t m : Int) (addr : String) (hb : b ≠ 0) (hge : t ≤ b) :
    analyzeResultsDet agentC3 [balanceFnW, mintFnW]
      (trigC3 [Val.str "check", Val.str "mint"] t m addr) [balEntryC3 b, mintEntryC3 addr] =
    .ok Option.none := by
  have hb' : truthy (Val.int b) = true := by simp [truthy, hb]
  have hlt' : decide (b < t) = false := decide_eq_false (not_lt.mpr hge)
  have hpend : getPendingTasksE agentC3 [balEntryC3 b, mintEntryC3 addr] = .ok [] := rfl
  have hrev : [balEntryC3 b, mintEntryC3 addr].reverse = [mintEntryC3 addr, balEntryC3 b] := rfl
  have hflb : findLastBalance [mintEntryC3 addr, balEntryC3 b] = .ok (some (balEntryC3 b)) := rfl
  have hhk : dictHasKey (balEntryC3 b) "result" = true := rfl
  have hres : dictGet (balEntryC3 b) "result" =
      some (Val.dict [("success", Val.bool true), ("data", Val.int b)]) := rfl
  unfold analyzeResultsDet reflectionHeuristic reflectionTry
  simp [hb, hpend, hrev, hflb, hhk, hres, hb', hlt', Bind.bind, Except.bind,
    pure, Except.pure, pyDictGetE, pyAnyMem, pyInE, pyMemList, Val.pyEq, pyInt,
    pyLen, pyIndexNat, pyLtIntVal, catchVTErr, truthy, pyIndex0, pyStr, pyRepr,
    dictGetD_eq, Option.getD, trigC3]

/-- C3 counterexample: with balance 10 observed above threshold 5 and the
immediately prior history entry a successful mint, the heuristic emits no
re-check action at all — the `elif` at line 1070 only runs when the balance
is still below the threshold, so above the threshold the deterministic part
falls through to the LLM stage. -/
theorem analyze_results_above_no_recheck :
    analyzeResultsDet agentC3 [balanceFnW, mintFnW]
      (trigC3 [Val.str "check", Val.str "mint"] 5 2 "0xabc")
      [balEntryC3 10, mintEntryC3 "0xabc"] = .ok Option.none := rfl

/-- C3 (amended): with a successful last balance read of `b ≠ 0` and
threshold `t`, mint amount `m` taken from the extracted amounts: (i) when
`b < t` and "mint" is among the behaviors, exactly one mint action is
emitted; (ii) when `b < t` but "mint" is NOT among the behaviors and the
last history entry was a mint, a balance re-check action is emitted; (iii)
when `b ≥ t` the heuristic emits nothing — in particular the re-check after
a mint happens below the threshold, not above it as claimed. -/
theorem analyze_results_threshold_heuristic (b t m : Int) (addr : String) (hb : b ≠ 0) :
    (b < t →
      analyzeResultsDet agentC3 [balanceFnW, mintFnW]
        (trigC3 [Val.str "check", Val.str "mint"] t m addr) [balEntryC3 b] =
      .ok (some [[("function", Val.str "mint"),
        ("params", Val.dict [("to", Val.str addr), ("amount", Val.int m)]),
        ("message", Val.str ("Minting " ++ toString m ++ " tokens to " ++ addr
          ++ " to meet threshold of " ++ toString t))]])) ∧
    (b < t →
      analyzeResultsDet agentC3 [balanceFnW, mintFnW]
        (trigC3 [Val.str "check"] t m addr) [balEntryC3 b, mintEntryC3 addr] =
      .ok (some [[("function", Val.str "balanceOf"),
        ("params", Val.dict [("account", Val.str addr)]),
        ("message", Val.str ("Checking updated balance after mint for " ++ addr))]])) ∧
    (t ≤ b →
      analyzeResultsDet agentC3 [balanceFnW, mintFnW]
        (trigC3 [Val.str "check", Val.str "mint"] t m addr) [balEntryC3 b, mintEntryC3 addr] =
      .ok Option.none) :=
  ⟨fun hlt => reflection_mint_below b t m addr hb hlt,
   fun hlt => reflection_recheck_below b t m addr hb hlt,
   fun hge => reflection_none_above b t m addr hb hge⟩

/-- Closed instance of the C3 theorem at balance 3, threshold 5, amount 2. -/
theorem analyze_results_threshold_heuristic_witness :
    (3 : Int) ≠ 0 ∧
    (((3 : Int) < 5 →
      analyzeResultsDet agentC3 [balanceFnW, mintFnW]
        (trigC3 [Val.str "check", Val.str "mint"] 5 2 "0xdef") [balEntryC3 3] =
      .ok (some [[("function", Val.str "mint"),
        ("params", Val.dict [("to", Val.str "0xdef"), ("amount", Val.int 2)]),
        ("message", Val.str ("Minting " ++ toString (2 : Int) ++ " tokens to " ++ "0xdef"
          ++ " to meet threshold of " ++ toString (5 : Int)))]])) ∧
    ((3 : Int) < 5 →
      analyzeResultsDet agentC3 [balanceFnW, mintFnW]
        (trigC3 [Val.str "check"] 5 2 "0xdef") [balEntryC3 3, mintEntryC3 "0xdef"] =
      .ok (some [[("function", Val.str "balanceOf"),
        ("params", Val.dict [("account", Val.str "0xdef")]),
        ("message", Val.str ("Checking updated balance after mint for " ++ "0xdef"))]])) ∧
    ((5 : Int) ≤ 3 →
      analyzeResultsDet agentC3 [balanceFnW, mintFnW]
        (trigC3 [Val.str "check", Val.str "mint"] 5 2 "0xdef") [balEntryC3 3, mintEntryC3 "0xdef"] =
      .ok Option.none)) :=
  ⟨by decide, analyze_results_threshold_heuristic 3 5 2 "0xdef" (by decide)⟩

theorem analyzeStateCore_err (A : AgentS) (fns : List FnS) (e : PyErr) (trig : Dict)
    (l : List Dict) (hc : analyzeStateCore A fns (.error e) trig = .ok l) :
    l = [] ∨ detActionsOf A fns trig = .ok l ∨ determineInitialActionsE A fns = .ok l := by
  unfold analyzeStateCore at hc
  cases hd : detActionsOf A fns trig with
  | error err => rw [hd] at hc; simp [Bind.bind, Except.bind] at hc
  | ok acts =>
    rw [hd] at hc
    simp only [Bind.bind, Except.bind] at hc
    cases acts with
    | cons a as =>
      simp only [List.isEmpty_cons, Bool.not_false] at hc
      rw [if_pos trivial] at hc
      simp only [pure, Except.pure, Except.ok.injEq] at hc
      right; left; rw [hc]
    | nil =>
      simp only [List.isEmpty_nil, Bool.not_true] at hc
      rw [if_neg Bool.false_ne_true] at hc
      try dsimp only at hc
      cases htr : truthy (dictGetD trig "extracted_params" (Val.dict [])) with
      | false =>
        rw [htr, if_neg Bool.false_ne_true] at hc
        simp only [pure, Except.pure, Except.ok.injEq] at hc
        left; exact hc.symm
      | true =>
        rw [htr, if_pos rfl] at hc
        try simp only [Bind.bind, Except.bind] at hc
        cases hh : determineInitialActionsE A fns with
        | error err => rw [hh] at hc; simp at hc
        | ok h =>
          rw [hh] at hc
          try dsimp only at hc
          cases h with
          | cons b bs =>
            simp only [List.isEmpty_cons] at hc
            rw [if_neg Bool.false_ne_true] at hc
            simp only [pure, Except.pure, Except.ok.injEq] at hc
            right; right; rw [hc]
          | nil =>
            simp only [List.isEmpty_nil] at hc
            rw [if_pos trivial] at hc
            try simp only [Bind.bind, Except.bind] at hc
            cases hin : pyInE (Val.str "behaviors") (dictGetD trig "extracted_params" (Val.dict [])) with
            | error err => rw [hin] at hc; simp at hc
            | ok bIn =>
              rw [hin] at hc
              try dsimp only at hc
              cases bIn with
              | false =>
                rw [if_neg Bool.false_ne_true] at hc
                simp only [pure, Except.pure, Except.ok.injEq] at hc
                left; exact hc.symm
              | true =>
                rw [if_pos rfl] at hc
                try simp only [Bind.bind, Except.bind] at hc
                cases hgi : pyGetItemStrE (dictGetD trig "extracted_params" (Val.dict [])) "behaviors" with
                | error err => rw [hgi] at hc; simp at hc
                | ok behaviors =>
                  rw [hgi] at hc
                  try dsimp only at hc
                  cases had : pyDictGetE (dictGetD trig "extracted_params" (Val.dict [])) "addresses" (Val.list []) with
                  | error err => rw [had] at hc; simp at hc
                  | ok addrs =>
                    rw [had] at hc
                    try dsimp only at hc
                    cases ham : pyDictGetE (dictGetD trig "extracted_params" (Val.dict [])) "amounts" (Val.list []) with
                    | error err => rw [ham] at hc; simp at hc
                    | ok amts =>
                      rw [ham] at hc
                      try dsimp only at hc
                      cases hany : pyAnyMem ["check_balance", "check"] behaviors with
                      | error err => rw [hany] at hc; simp at hc
                      | ok bAny =>
                        rw [hany] at hc
                        try dsimp only at hc
                        cases bAny with
                        | true =>
                          rw [if_pos rfl] at hc
                          simp [throw, throwThe, MonadExceptOf.throw] at hc
                        | false =>
                          rw [if_neg Bool.false_ne_true] at hc
                          cases hmn : pyInE (Val.str "mint") behaviors with
                          | error err => rw [hmn] at hc; simp at hc
                          | ok bMint =>
                            rw [hmn] at hc
                            try dsimp only at hc
                            cases bMint with
                            | true =>
                              rw [if_pos rfl] at hc
                              simp [throw, throwThe, MonadExceptOf.throw] at hc
                            | false =>
                              rw [if_neg Bool.false_ne_true] at hc
                              simp only [pure, Except.pure, Except.ok.injEq] at hc
                              left; exact hc.symm

/-- C5: on any execution in which the LLM call raises, `analyze_state`
returns a plain action list instead of propagating: either the empty list,
or the deterministic list derived from the trigger's extracted parameters
(`detActionsOf`), or the description-derived heuristic list
(`determineInitialActionsE`).  Totality of `analyzeState` itself embeds the
outer handler of lines 588-861, which maps every raised exception to `[]`. -/
theorem analyze_state_no_raise (A : AgentS) (fns : List FnS) (trig : Dict) (e : PyErr) :
    analyzeState A fns (.error e) trig = [] ∨
    detActionsOf A fns trig = .ok (analyzeState A fns (.error e) trig) ∨
    determineInitialActionsE A fns = .ok (analyzeState A fns (.error e) trig) := by
  cases hc : analyzeStateCore A fns (.error e) trig with
  | error err => left; simp [analyzeState, hc]
  | ok l =>
    have h := analyzeStateCore_err A fns e trig l hc
    have hs : analyzeState A fns (.error e) trig = l := by simp [analyzeState, hc]
    rw [hs]; exact h

theorem pyAnyMem_pair (a b : String) (bs : List Val) :
    pyAnyMem [a, b] (Val.list bs) =
    .ok (pyMemList (Val.str a) bs || pyMemList (Val.str b) bs) := by
  cases hcb : pyMemList (Val.str a) bs <;>
    cases hck : pyMemList (Val.str b) bs <;>
      simp [pyAnyMem, pyInE, Bind.bind, Except.bind, pure, Except.pure, hcb, hck]

/-- C10: when the LLM call raises, the trigger's extracted parameters are a
non-empty dict whose "behaviors" entry is a list containing "check",
"check_balance" or "mint", the deterministic block produced no actions, and
the description heuristic produced none either, the behavior-based fallback
reaches `self._functions` — an attribute `__init__` never assigns — so the
branch raises AttributeError, the outer handler swallows it, and
`analyze_state` returns the empty list: this secondary fallback can never
emit an action. -/
theorem analyze_state_behavior_fallback_attr_error (A : AgentS) (fns : List FnS)
    (trig : Dict) (e : PyErr) (kvs : List (String × Val)) (bs : List Val)
    (hex : dictGetD trig "extracted_params" (Val.dict []) = Val.dict kvs)
    (htr : truthy (Val.dict kvs) = true)
    (hdet : detActionsOf A fns trig = .ok [])
    (hinit : determineInitialActionsE A fns = .ok [])
    (hin : pyInE (Val.str "behaviors") (Val.dict kvs) = .ok true)
    (hkey : dictGet kvs "behaviors" = some (Val.list bs))
    (hb : pyMemList (Val.str "check_balance") bs = true ∨
          pyMemList (Val.str "check") bs = true ∨
          pyMemList (Val.str "mint") bs = true) :
    analyzeStateCore A fns (.error e) trig = .error noFunctionsAttrErr ∧
    analyzeState A fns (.error e) trig = [] := by
  have hcore : analyzeStateCore A fns (.error e) trig = .error noFunctionsAttrErr := by
    unfold analyzeStateCore
    rw [hdet]
    simp only [Bind.bind, Except.bind]
    simp only [List.isEmpty_nil, Bool.not_true]
    rw [if_neg Bool.false_ne_true]
    try dsimp only
    rw [hex, if_pos htr]
    rw [hinit]
    try simp only [Bind.bind, Except.bind]
    try dsimp only
    simp only [List.isEmpty_nil]
    rw [if_pos trivial]
    try simp only [Bind.bind, Except.bind]
    rw [hin]
    try dsimp only
    rw [if_pos rfl]
    simp only [pyGetItemStrE]
    rw [hkey]
    try dsimp only
    simp only [pyDictGetE]
    try dsimp only
    rw [pyAnyMem_pair]
    try dsimp only
    cases h1 : (pyMemList (Val.str "check_balance") bs || pyMemList (Val.str "check") bs) with
    | true => rw [if_pos rfl]; rfl
    | false =>
      rw [if_neg Bool.false_ne_true]
      simp only [pyInE]
      try dsimp only
      rw [Bool.or_eq_false_iff] at h1
      rcases hb with h | h | h
      · rw [h] at h1; exact absurd h1.1 (by simp)
      · rw [h] at h1; exact absurd h1.2 (by simp)
      · rw [h, if_pos rfl]; rfl
  exact ⟨hcore, by simp [analyzeState, hcore]⟩

/-- Closed instance of the C10 theorem: an agent with no functions and an
empty description, a trigger whose extracted parameters list the single
behavior "mint", and a raising LLM call. -/
theorem analyze_state_behavior_fallback_attr_error_witness :
    analyzeStateCore agentC3 []
      (.error "boom") [("extracted_params", Val.dict [("behaviors", Val.list [Val.str "mint"])])] =
      .error noFunctionsAttrErr ∧
    analyzeState agentC3 []
      (.error "boom") [("extracted_params", Val.dict [("behaviors", Val.list [Val.str "mint"])])] = [] :=
  analyze_state_behavior_fallback_attr_error agentC3 []
    [("extracted_params", Val.dict [("behaviors", Val.list [Val.str "mint"])])] "boom"
    [("behaviors", Val.list [Val.str "mint"])] [Val.str "mint"]
    rfl rfl rfl rfl rfl rfl (Or.inr (Or.inr rfl))
